import Mathlib

/-!
The etcd KV bridge of kine (`pkg/server/kv.go`).

A shallow embedding of `KVServerBridge` and of the record translation
`toKV` / `toKVs`, followed by the properties established about them.

Conventions of the embedding

* A Go pointer `*T` is `Option T`; `none` is the nil pointer.
* A Go slice `[]T` is `List T`.  The nil slice and the empty slice are both
  `[]`: the code under study only takes `len`, indexes and ranges over
  slices, and none of these tells the two apart.
* `int64` and `int32` fields are `Int`.  The bridge only copies them and
  compares them with `0`; it does no arithmetic, so no wrap-around occurs.
* A Go `error` is `Option GoError`; `none` is the nil error.
* The request of `Range`, `Put`, `Txn` and `Compact` is a value: the gRPC
  layer hands these methods a non-nil message.  `DeleteRange` never reads
  its request, which is kept a pointer there.
* A bridge method runs against a backend with explicit state `σ`; its run
  is an `Exec`: what the method returned (or that it panicked on a nil
  dereference), the backend state afterwards, and the ordered list of
  effects (backend calls and log lines) it performed.
* The bridge holds no state of its own, so two concurrent calls are an
  interleaving of their backend calls on the shared backend state; for
  `Put` the two backend calls are the two halves `Put.prepare` and
  `Put.complete`.
-/

/-- One byte. -/
abbrev Byte := Fin 256

/-- The Go type `[]byte`. -/
abbrev Bytes := List Byte

/-- The Go type `string`: an immutable sequence of bytes. -/
structure GoString where
  data : List Byte
deriving DecidableEq, Repr

/-- The Go conversion `[]byte(s)`. -/
def GoString.toBytes (s : GoString) : Bytes := s.data

/-- The Go conversion `string(b)`. -/
def Bytes.toGoString (b : Bytes) : GoString := ⟨b⟩

/-- A non-nil Go `error`, identified by the message `Error()` returns. -/
structure GoError where
  msg : String
deriving DecidableEq, Repr

namespace fmt

/-- `fmt.Errorf(msg)` for a format string without verbs: the error whose
message is the format string. -/
def Errorf (msg : String) : GoError := ⟨msg⟩

end fmt

namespace mvccpb

/-- The wire record `mvccpb.KeyValue` of the etcd API. -/
structure KeyValue where
  Key : Bytes := []
  CreateRevision : Int := 0
  ModRevision : Int := 0
  Version : Int := 0
  Value : Bytes := []
  Lease : Int := 0
deriving DecidableEq, Repr

end mvccpb

namespace etcdserverpb

/-- The message `etcdserverpb.ResponseHeader`. -/
structure ResponseHeader where
  ClusterId : Nat := 0
  MemberId : Nat := 0
  Revision : Int := 0
  RaftTerm : Nat := 0
deriving DecidableEq, Repr

/-- The message `etcdserverpb.RangeRequest`; `SortOrder` and `SortTarget`
are protobuf enums, that is `int32` values. -/
structure RangeRequest where
  Key : Bytes := []
  RangeEnd : Bytes := []
  Limit : Int := 0
  Revision : Int := 0
  SortOrder : Int := 0
  SortTarget : Int := 0
  Serializable : Bool := false
  KeysOnly : Bool := false
  CountOnly : Bool := false
  MinModRevision : Int := 0
  MaxModRevision : Int := 0
  MinCreateRevision : Int := 0
  MaxCreateRevision : Int := 0
deriving DecidableEq, Repr

/-- The message `etcdserverpb.RangeResponse`. -/
structure RangeResponse where
  Header : Option ResponseHeader := none
  Kvs : List (Option mvccpb.KeyValue) := []
  More : Bool := false
  Count : Int := 0
deriving DecidableEq, Repr

/-- The message `etcdserverpb.PutRequest`. -/
structure PutRequest where
  Key : Bytes := []
  Value : Bytes := []
  Lease : Int := 0
  PrevKv : Bool := false
  IgnoreValue : Bool := false
  IgnoreLease : Bool := false
deriving DecidableEq, Repr

/-- The message `etcdserverpb.PutResponse`. -/
structure PutResponse where
  Header : Option ResponseHeader := none
  PrevKv : Option mvccpb.KeyValue := none
deriving DecidableEq, Repr

/-- The message `etcdserverpb.DeleteRangeRequest`. -/
structure DeleteRangeRequest where
  Key : Bytes := []
  RangeEnd : Bytes := []
  PrevKv : Bool := false
deriving DecidableEq, Repr

/-- The message `etcdserverpb.DeleteRangeResponse`. -/
structure DeleteRangeResponse where
  Header : Option ResponseHeader := none
  Deleted : Int := 0
  PrevKvs : List (Option mvccpb.KeyValue) := []
deriving DecidableEq, Repr

/-- The message `etcdserverpb.CompactionRequest`. -/
structure CompactionRequest where
  Revision : Int := 0
  Physical : Bool := false
deriving DecidableEq, Repr

/-- The message `etcdserverpb.CompactionResponse`. -/
structure CompactionResponse where
  Header : Option ResponseHeader := none
deriving DecidableEq, Repr

/-- The enum `etcdserverpb.Compare_CompareResult`. -/
inductive Compare_CompareResult where
  | EQUAL
  | GREATER
  | LESS
  | NOT_EQUAL
deriving DecidableEq, Repr

/-- The enum `etcdserverpb.Compare_CompareTarget`. -/
inductive Compare_CompareTarget where
  | VERSION
  | CREATE
  | MOD
  | VALUE
  | LEASE
deriving DecidableEq, Repr

/-- The oneof `target_union` of `etcdserverpb.Compare`. -/
inductive Compare_TargetUnion where
  | Compare_Version (Version : Int)
  | Compare_CreateRevision (CreateRevision : Int)
  | Compare_ModRevision (ModRevision : Int)
  | Compare_Value (Value : Bytes)
  | Compare_Lease (Lease : Int)
deriving DecidableEq, Repr

/-- The message `etcdserverpb.Compare`; a nil `TargetUnion` is `none`. -/
structure Compare where
  Result : Compare_CompareResult := .EQUAL
  Target : Compare_CompareTarget := .VERSION
  Key : Bytes := []
  TargetUnion : Option Compare_TargetUnion := none
  RangeEnd : Bytes := []
deriving DecidableEq, Repr

mutual
/-- The oneof `request` of `etcdserverpb.RequestOp`. -/
inductive RequestOp_Request where
  | RequestOp_RequestRange (RequestRange : Option RangeRequest)
  | RequestOp_RequestPut (RequestPut : Option PutRequest)
  | RequestOp_RequestDeleteRange (RequestDeleteRange : Option DeleteRangeRequest)
  | RequestOp_RequestTxn (RequestTxn : Option TxnRequest)
/-- The message `etcdserverpb.RequestOp`; a nil `Request` is `none`. -/
inductive RequestOp where
  | mk (Request : Option RequestOp_Request)
/-- The message `etcdserverpb.TxnRequest`. -/
inductive TxnRequest where
  | mk (Compare : List (Option Compare)) (Success : List (Option RequestOp))
      (Failure : List (Option RequestOp))
end

/-- Field `Compare` of a `TxnRequest`. -/
def TxnRequest.Compare : TxnRequest → List (Option Compare)
  | .mk c _ _ => c

/-- Field `Success` of a `TxnRequest`. -/
def TxnRequest.Success : TxnRequest → List (Option RequestOp)
  | .mk _ s _ => s

/-- Field `Failure` of a `TxnRequest`. -/
def TxnRequest.Failure : TxnRequest → List (Option RequestOp)
  | .mk _ _ f => f

mutual
/-- The oneof `response` of `etcdserverpb.ResponseOp`. -/
inductive ResponseOp_Response where
  | ResponseOp_ResponseRange (ResponseRange : Option RangeResponse)
  | ResponseOp_ResponsePut (ResponsePut : Option PutResponse)
  | ResponseOp_ResponseDeleteRange (ResponseDeleteRange : Option DeleteRangeResponse)
  | ResponseOp_ResponseTxn (ResponseTxn : Option TxnResponse)
/-- The message `etcdserverpb.ResponseOp`; a nil `Response` is `none`. -/
inductive ResponseOp where
  | mk (Response : Option ResponseOp_Response)
/-- The message `etcdserverpb.TxnResponse`. -/
inductive TxnResponse where
  | mk (Header : Option ResponseHeader) (Succeeded : Bool)
      (Responses : List (Option ResponseOp))
end

/-- Field `Header` of a `TxnResponse`. -/
def TxnResponse.Header : TxnResponse → Option ResponseHeader
  | .mk h _ _ => h

/-- Field `Succeeded` of a `TxnResponse`. -/
def TxnResponse.Succeeded : TxnResponse → Bool
  | .mk _ b _ => b

/-- Field `Responses` of a `TxnResponse`. -/
def TxnResponse.Responses : TxnResponse → List (Option ResponseOp)
  | .mk _ _ rs => rs

/-- The generated getter `(*ResponseOp).GetResponse`: nil-safe. -/
def ResponseOp.GetResponse : Option ResponseOp → Option ResponseOp_Response
  | some (.mk resp) => resp
  | none => none

/-- The generated getter `(*ResponseOp).GetResponsePut`: the embedded put
response when the oneof holds one, nil otherwise (also on a nil receiver). -/
def ResponseOp.GetResponsePut (m : Option ResponseOp) : Option PutResponse :=
  match ResponseOp.GetResponse m with
  | some (.ResponseOp_ResponsePut x) => x
  | _ => none

end etcdserverpb

namespace clientv3

/-- The type `clientv3.Cmp`, declared as `type Cmp pb.Compare`. -/
abbrev Cmp := etcdserverpb.Compare

/-- The etcd client helper `clientv3.ModRevision(key)`: a comparison on the
modification revision of `key`, still without operator and value. -/
def ModRevision (key : GoString) : Cmp :=
  { Key := key.toBytes, Target := .MOD }

/-- The etcd client helper `clientv3.Compare(cmp, result, v)` for an `int64`
value `v`: it sets the operator named by `result` and stores `v` in the
union member selected by the target.  `none` is the helper's panic (unknown
operator, or an integer given for a comparison of values). -/
def Compare (cmp : Cmp) (result : String) (v : Int) : Option Cmp :=
  let r : Option etcdserverpb.Compare_CompareResult :=
    if result = "=" then some .EQUAL
    else if result = "!=" then some .NOT_EQUAL
    else if result = ">" then some .GREATER
    else if result = "<" then some .LESS
    else none
  match r with
  | none => none
  | some r =>
    match cmp.Target with
    | .VALUE => none
    | .VERSION => some { cmp with Result := r, TargetUnion := some (.Compare_Version v) }
    | .CREATE => some { cmp with Result := r, TargetUnion := some (.Compare_CreateRevision v) }
    | .MOD => some { cmp with Result := r, TargetUnion := some (.Compare_ModRevision v) }
    | .LEASE => some { cmp with Result := r, TargetUnion := some (.Compare_Lease v) }

end clientv3

namespace server

open etcdserverpb

/-- Modelled from the spec: the internal record `KeyValue` of the backend,
declared outside `kv.go`.  Five fields (spec, data model); `Key` is a Go
string, as the conversion `[]byte(kv.Key)` in `toKV` shows. -/
structure KeyValue where
  Key : GoString := ⟨[]⟩
  CreateRevision : Int := 0
  ModRevision : Int := 0
  Value : Bytes := []
  Lease : Int := 0
deriving DecidableEq, Repr

/-- Modelled from the spec: the response of the limited backend's `Range`,
declared outside `kv.go`: the ordered records, `More`, `Count` and the
response header, the four fields `KVServerBridge.Range` reads. -/
structure RangeResponse where
  Header : Option ResponseHeader := none
  Kvs : List (Option KeyValue) := []
  More : Bool := false
  Count : Int := 0
deriving DecidableEq, Repr

/-- What a bridge method does besides returning: a call of the backend's
`Range`, a call of the backend's `Txn`, or a `logrus.Errorf` line (format
string, the byte-slice arguments, the error argument). -/
inductive Effect (κ : Type) where
  | limitedRange (ctx : κ) (r : etcdserverpb.RangeRequest)
  | limitedTxn (ctx : κ) (txn : TxnRequest)
  | logrusErrorf (format : String) (args : List Bytes) (err : GoError)

/-- Whether an effect is a call of the backend. -/
def Effect.isBackendCall {κ : Type} : Effect κ → Bool
  | .limitedRange _ _ => true
  | .limitedTxn _ _ => true
  | .logrusErrorf _ _ _ => false

/-- The backend calls among a list of effects, in order. -/
def backendCalls {κ : Type} (es : List (Effect κ)) : List (Effect κ) :=
  es.filter Effect.isBackendCall

/-- The requests of the backend `Txn` calls among a list of effects. -/
def txnCalls {κ : Type} : List (Effect κ) → List TxnRequest
  | [] => []
  | .limitedTxn _ t :: es => t :: txnCalls es
  | _ :: es => txnCalls es

/-- The requests of the backend `Range` calls among a list of effects. -/
def rangeCalls {κ : Type} : List (Effect κ) → List etcdserverpb.RangeRequest
  | [] => []
  | .limitedRange _ r :: es => r :: rangeCalls es
  | _ :: es => rangeCalls es

/-- The backend interface the bridge consumes (field `limited`): `Range` and
`Txn`, each a function of the context, the request and the backend state,
returning the Go pair `(response, error)` and the next state. -/
structure LimitedServer (κ σ : Type) where
  Range : κ → etcdserverpb.RangeRequest → σ →
    (Option RangeResponse × Option GoError) × σ
  Txn : κ → TxnRequest → σ → (Option TxnResponse × Option GoError) × σ

/-- The bridge `KVServerBridge`: it holds the limited backend. -/
structure KVServerBridge (κ σ : Type) where
  limited : LimitedServer κ σ

/-- How a method call ends: it returns the Go pair `(response, error)`, or
it panics (nil pointer dereference, panic of a library helper). -/
inductive Outcome (α : Type) where
  | ret (resp : Option α) (err : Option GoError)
  | panicked
deriving DecidableEq, Repr

/-- A run of a bridge method. -/
structure Exec (κ σ α : Type) where
  outcome : Outcome α
  state : σ
  effects : List (Effect κ)

/-- The function `unsupported`: `fmt.Errorf("%s is unsupported", field)`;
the verb `%s` of a string argument prints the string itself. -/
def unsupported (field : String) : GoError :=
  ⟨field ++ " is unsupported"⟩

/-- The function `toKV`. -/
def toKV (kv : Option KeyValue) : Option mvccpb.KeyValue :=
  match kv with
  | none => none
  | some kv =>
    some { Key := kv.Key.toBytes
           Value := kv.Value
           Lease := kv.Lease
           CreateRevision := kv.CreateRevision
           ModRevision := kv.ModRevision }

/-- The loop of `toKVs`: one iteration appends the translated record to
`ret` unless it is nil. -/
def toKVs.step (ret : List (Option mvccpb.KeyValue)) (kv : Option KeyValue) :
    List (Option mvccpb.KeyValue) :=
  let newKV := toKV kv
  if newKV ≠ none then ret ++ [newKV] else ret

/-- The function `toKVs`. -/
def toKVs (kvs : List (Option KeyValue)) : List (Option mvccpb.KeyValue) :=
  if kvs.length = 0 ∨ kvs.head? = some none then []
  else kvs.foldl toKVs.step []

/-- The method `KVServerBridge.Range`. -/
def KVServerBridge.Range {κ σ : Type} (k : KVServerBridge κ σ) (ctx : κ)
    (r : etcdserverpb.RangeRequest) (s : σ) :
    Exec κ σ etcdserverpb.RangeResponse :=
  if r.KeysOnly then ⟨.ret none (some (unsupported "keysOnly")), s, []⟩
  else if r.MaxCreateRevision ≠ 0 then
    ⟨.ret none (some (unsupported "maxCreateRevision")), s, []⟩
  else if r.SortOrder ≠ 0 then ⟨.ret none (some (unsupported "sortOrder")), s, []⟩
  else if r.SortTarget ≠ 0 then ⟨.ret none (some (unsupported "sortTarget")), s, []⟩
  else if r.Serializable then ⟨.ret none (some (unsupported "serializable")), s, []⟩
  else if r.KeysOnly then ⟨.ret none (some (unsupported "keysOnly")), s, []⟩
  else if r.MinModRevision ≠ 0 then
    ⟨.ret none (some (unsupported "minModRevision")), s, []⟩
  else if r.MinCreateRevision ≠ 0 then
    ⟨.ret none (some (unsupported "minCreateRevision")), s, []⟩
  else if r.MaxCreateRevision ≠ 0 then
    ⟨.ret none (some (unsupported "maxCreateRevision")), s, []⟩
  else if r.MaxModRevision ≠ 0 then
    ⟨.ret none (some (unsupported "maxModRevision")), s, []⟩
  else
    match k.limited.Range ctx r s with
    | ((_, some err), s1) =>
      ⟨.ret none (some err), s1,
        [.limitedRange ctx r,
         .logrusErrorf "error while range on %s %s: %v" [r.Key, r.RangeEnd] err]⟩
    | ((none, none), s1) => ⟨.panicked, s1, [.limitedRange ctx r]⟩
    | ((some resp, none), s1) =>
      ⟨.ret (some { More := resp.More
                    Count := resp.Count
                    Header := resp.Header
                    Kvs := toKVs resp.Kvs }) none, s1, [.limitedRange ctx r]⟩

/-- Lines 109-112 of `Put`: `rev` is `0` when the backend returned no
record, and otherwise `rangeResp.Kvs[0].ModRevision`; reading the field of a
nil first record is a nil dereference (`none`). -/
def Put.rev (kvs : List (Option KeyValue)) : Option Int :=
  if kvs.length > 0 then
    match kvs.head? with
    | some (some kv) => some kv.ModRevision
    | _ => none
  else some 0

/-- Lines 115-131 of `Put`: the transaction built around the comparison
`cmp` for the put request `r`. -/
def Put.txn (r : PutRequest) (cmp : clientv3.Cmp) : TxnRequest :=
  .mk [some cmp]
    [some (.mk (some (.RequestOp_RequestPut (some r))))]
    [some (.mk (some (.RequestOp_RequestRange (some { Key := r.Key }))))]

/-- The method `KVServerBridge.Put`. -/
def KVServerBridge.Put {κ σ : Type} (k : KVServerBridge κ σ) (ctx : κ)
    (r : PutRequest) (s : σ) : Exec κ σ PutResponse :=
  let rangeReq : etcdserverpb.RangeRequest := { Key := r.Key }
  match k.limited.Range ctx rangeReq s with
  | ((_, some err), s1) => ⟨.ret none (some err), s1, [.limitedRange ctx rangeReq]⟩
  | ((none, none), s1) => ⟨.panicked, s1, [.limitedRange ctx rangeReq]⟩
  | ((some rangeResp, none), s1) =>
    match Put.rev rangeResp.Kvs with
    | none => ⟨.panicked, s1, [.limitedRange ctx rangeReq]⟩
    | some rev =>
      match clientv3.Compare (clientv3.ModRevision r.Key.toGoString) "=" rev with
      | none => ⟨.panicked, s1, [.limitedRange ctx rangeReq]⟩
      | some cmp =>
        let txn := Put.txn r cmp
        match k.limited.Txn ctx txn s1 with
        | ((_, some err), s2) =>
          ⟨.ret none (some err), s2, [.limitedRange ctx rangeReq, .limitedTxn ctx txn]⟩
        | ((none, none), s2) =>
          ⟨.panicked, s2, [.limitedRange ctx rangeReq, .limitedTxn ctx txn]⟩
        | ((some resp, none), s2) =>
          if resp.Responses.length = 0 then
            ⟨.ret none (some (fmt.Errorf "broken internal put implementation")), s2,
              [.limitedRange ctx rangeReq, .limitedTxn ctx txn]⟩
          else
            ⟨.ret (ResponseOp.GetResponsePut (resp.Responses.head?.join)) none, s2,
              [.limitedRange ctx rangeReq, .limitedTxn ctx txn]⟩

/-- The method `KVServerBridge.DeleteRange`. -/
def KVServerBridge.DeleteRange {κ σ : Type} (_k : KVServerBridge κ σ) (_ctx : κ)
    (_r : Option DeleteRangeRequest) (s : σ) : Exec κ σ DeleteRangeResponse :=
  ⟨.ret none (some (fmt.Errorf "delete is not supported")), s, []⟩

/-- The method `KVServerBridge.Txn`. -/
def KVServerBridge.Txn {κ σ : Type} (k : KVServerBridge κ σ) (ctx : κ)
    (r : TxnRequest) (s : σ) : Exec κ σ TxnResponse :=
  match k.limited.Txn ctx r s with
  | ((res, some err), s1) =>
    ⟨.ret res (some err), s1, [.limitedTxn ctx r, .logrusErrorf "error in txn: %v" [] err]⟩
  | ((res, none), s1) => ⟨.ret res none, s1, [.limitedTxn ctx r]⟩

/-- The method `KVServerBridge.Compact`. -/
def KVServerBridge.Compact {κ σ : Type} (_k : KVServerBridge κ σ) (_ctx : κ)
    (r : CompactionRequest) (s : σ) : Exec κ σ CompactionResponse :=
  ⟨.ret (some { Header := some { Revision := r.Revision } }) none, s, []⟩

end server

/-! ## Fixtures: concrete backends and requests -/

namespace server

open etcdserverpb

/-- A backend that answers every `Range` with `rr` and every `Txn` with
`tr`; its state counts the calls it has served. -/
def scriptedBridge (rr : Option RangeResponse × Option GoError)
    (tr : Option TxnResponse × Option GoError) : KVServerBridge Unit Nat :=
  ⟨{ Range := fun _ _ n => (rr, n + 1)
     Txn := fun _ _ n => (tr, n + 1) }⟩

/-- The key `"k"` as bytes. -/
def keyK : Bytes := [107]

/-- An internal record for key `"k"` at modification revision 7. -/
def recordK : KeyValue :=
  { Key := ⟨[107]⟩, CreateRevision := 3, ModRevision := 7, Value := [118], Lease := 0 }

/-- An internal record for key `"l"` at modification revision 9. -/
def recordL : KeyValue :=
  { Key := ⟨[108]⟩, CreateRevision := 9, ModRevision := 9, Value := [119], Lease := 2 }

/-- A put of value `"v"` under key `"k"`. -/
def putK : PutRequest := { Key := keyK, Value := [118] }

/-- A backend answer to the lookup of `"k"`: the record at revision 7. -/
def rangeRespK : RangeResponse :=
  { Header := some { Revision := 7 }, Kvs := [some recordK], More := false, Count := 1 }

/-- A backend answer with two records, more to come, five matches. -/
def rangeRespTwo : RangeResponse :=
  { Header := some { Revision := 9 }, Kvs := [some recordK, some recordL], More := true,
    Count := 5 }

/-- A transaction answer whose `Success` branch ran: one put result. -/
def txnRespPut : TxnResponse :=
  .mk (some { Revision := 8 }) true
    [some (.mk (some (.ResponseOp_ResponsePut (some { Header := some { Revision := 8 } }))))]

/-- A transaction answer whose `Failure` branch ran, after another writer
moved `"k"` to revision 8: one range result, no put result. -/
def txnRespConflict : TxnResponse :=
  .mk (some { Revision := 8 }) false
    [some (.mk (some (.ResponseOp_ResponseRange (some
      { Header := some { Revision := 8 }
        Kvs := [some { Key := keyK, CreateRevision := 3, ModRevision := 8, Value := [120] }]
        Count := 1 }))))]

/-- A transaction answer without any operation result. -/
def txnRespEmpty : TxnResponse := .mk (some { Revision := 8 }) true []

/-- The reverse of `toKV`, written from the specification's words
("converting an internal KeyValue to wire format and back"): the internal
record with the five fields of a wire record.  It is not part of `kv.go`. -/
def wireToKeyValue (w : mvccpb.KeyValue) : KeyValue :=
  { Key := Bytes.toGoString w.Key
    Value := w.Value
    Lease := w.Lease
    CreateRevision := w.CreateRevision
    ModRevision := w.ModRevision }

/-- The translation the specification asks of `toKVs`: `toKV` applied to
each non-nil entry, in input order. -/
def translateNonNil (kvs : List (Option KeyValue)) : List (Option mvccpb.KeyValue) :=
  (kvs.filter Option.isSome).map toKV

/-- The comparison the specification calls "ModRevision of K equals
observedRevision": key `K`, target `MOD`, operator `EQUAL`, expected
modification revision `rev`, no range end. -/
def modRevisionEquals (key : Bytes) (rev : Int) : etcdserverpb.Compare :=
  { Result := .EQUAL
    Target := .MOD
    Key := key
    TargetUnion := some (.Compare_ModRevision rev)
    RangeEnd := [] }

/-- The unsupported fields as the specification enumerates them for the
error message, each paired with whether the request sets it to a
non-default value. -/
def unsupportedFields (r : etcdserverpb.RangeRequest) : List (String × Bool) :=
  [("keysOnly", r.KeysOnly),
   ("maxCreateRevision", decide (r.MaxCreateRevision ≠ 0)),
   ("sortOrder", decide (r.SortOrder ≠ 0)),
   ("sortTarget", decide (r.SortTarget ≠ 0)),
   ("serializable", r.Serializable),
   ("minModRevision", decide (r.MinModRevision ≠ 0)),
   ("minCreateRevision", decide (r.MinCreateRevision ≠ 0)),
   ("maxModRevision", decide (r.MaxModRevision ≠ 0))]

/-- The first field of `unsupportedFields` that the request sets, if any. -/
def firstUnsupportedField (r : etcdserverpb.RangeRequest) : Option String :=
  ((unsupportedFields r).find? (fun p => p.2)).map (fun p => p.1)

/-- A range request that sets every supported field and no other. -/
def rangeReqSupported : etcdserverpb.RangeRequest :=
  { Key := keyK, RangeEnd := [108], Limit := 10, Revision := 4, CountOnly := true }

/-- A range request that sets two unsupported fields, `sortOrder` and
`maxModRevision`. -/
def rangeReqSorted : etcdserverpb.RangeRequest :=
  { Key := keyK, SortOrder := 2, MaxModRevision := 5 }

/-- A backend error. -/
def backendError : GoError := ⟨"database is locked"⟩

/-- Where `Put` stands once its transaction is built (after line 131):
either it has already ended, or it is about to submit `txn`, the backend
having been left in state `s1` by the `Range` call. -/
inductive Put.Prepared (κ σ : Type) where
  | finished (e : Exec κ σ PutResponse)
  | ready (txn : TxnRequest) (s1 : σ)

/-- Lines 102-131 of `Put`: the backend `Range` call, the observed revision
and the transaction built from it. -/
def Put.prepare {κ σ : Type} (k : KVServerBridge κ σ) (ctx : κ) (r : PutRequest) (s : σ) :
    Put.Prepared κ σ :=
  let rangeReq : etcdserverpb.RangeRequest := { Key := r.Key }
  match k.limited.Range ctx rangeReq s with
  | ((_, some err), s1) => .finished ⟨.ret none (some err), s1, [.limitedRange ctx rangeReq]⟩
  | ((none, none), s1) => .finished ⟨.panicked, s1, [.limitedRange ctx rangeReq]⟩
  | ((some rangeResp, none), s1) =>
    match Put.rev rangeResp.Kvs with
    | none => .finished ⟨.panicked, s1, [.limitedRange ctx rangeReq]⟩
    | some rev =>
      match clientv3.Compare (clientv3.ModRevision r.Key.toGoString) "=" rev with
      | none => .finished ⟨.panicked, s1, [.limitedRange ctx rangeReq]⟩
      | some cmp => .ready (Put.txn r cmp) s1

/-- Lines 133-140 of `Put`: the backend `Txn` call on the built transaction,
made in backend state `s`, and the reading of its answer. -/
def Put.complete {κ σ : Type} (k : KVServerBridge κ σ) (ctx : κ) (r : PutRequest)
    (txn : TxnRequest) (s : σ) : Exec κ σ PutResponse :=
  let rangeReq : etcdserverpb.RangeRequest := { Key := r.Key }
  match k.limited.Txn ctx txn s with
  | ((_, some err), s2) =>
    ⟨.ret none (some err), s2, [.limitedRange ctx rangeReq, .limitedTxn ctx txn]⟩
  | ((none, none), s2) =>
    ⟨.panicked, s2, [.limitedRange ctx rangeReq, .limitedTxn ctx txn]⟩
  | ((some resp, none), s2) =>
    if resp.Responses.length = 0 then
      ⟨.ret none (some (fmt.Errorf "broken internal put implementation")), s2,
        [.limitedRange ctx rangeReq, .limitedTxn ctx txn]⟩
    else
      ⟨.ret (ResponseOp.GetResponsePut (resp.Responses.head?.join)) none, s2,
        [.limitedRange ctx rangeReq, .limitedTxn ctx txn]⟩

/-- Modelled from the spec: the state of the limited backend, which is not
part of `kv.go`: the current store revision and the stored records, at most
one per key (spec, data model: each key carries the revision of its
creation and of its last modification). -/
structure Store where
  Revision : Int := 0
  Records : List KeyValue := []
deriving DecidableEq, Repr

/-- Modelled from the spec: the record stored under `key`, if any. -/
def Store.get (st : Store) (key : Bytes) : Option KeyValue :=
  st.Records.find? (fun kv => decide (kv.Key.toBytes = key))

/-- Modelled from the spec: the modification revision of `key`, `0` when
the key does not exist. -/
def Store.modRevision (st : Store) (key : Bytes) : Int :=
  match st.get key with
  | some kv => kv.ModRevision
  | none => 0

/-- Modelled from the spec: the backend's exact-key `Range`: the record of
the key if it exists, and the current store revision in the header. -/
def Store.Range (st : Store) (r : etcdserverpb.RangeRequest) : RangeResponse :=
  match st.get r.Key with
  | some kv => { Header := some { Revision := st.Revision }, Kvs := [some kv], Count := 1 }
  | none => { Header := some { Revision := st.Revision } }

/-- Modelled from the spec: whether a comparison holds.  The backend knows
the one assertion the bridge builds, "ModRevision of K equals the expected
value"; any other comparison does not hold. -/
def Store.holds (st : Store) : Option etcdserverpb.Compare → Bool
  | none => false
  | some c =>
    match c.Target, c.Result, c.TargetUnion with
    | .MOD, .EQUAL, some (.Compare_ModRevision rev) => decide (st.modRevision c.Key = rev)
    | _, _, _ => false

/-- Modelled from the spec: a write of the backend: the store revision
moves to the next one, which becomes the `ModRevision` of the key (and its
`CreateRevision` when the key is new). -/
def Store.put (st : Store) (p : PutRequest) : Store × PutResponse :=
  let rev := st.Revision + 1
  let created := match st.get p.Key with
    | some old => old.CreateRevision
    | none => rev
  let kv : KeyValue :=
    { Key := p.Key.toGoString, CreateRevision := created, ModRevision := rev,
      Value := p.Value, Lease := p.Lease }
  ({ Revision := rev
     Records := kv :: st.Records.filter (fun x => decide (x.Key.toBytes ≠ p.Key)) },
   { Header := some { Revision := rev } })

/-- Modelled from the spec: one operation of a transaction branch and its
result: a put writes and yields a put result, a range reads and yields a
range result; the limited backend runs no other operation (nil result). -/
def Store.apply (st : Store) : Option RequestOp → Store × Option ResponseOp
  | some (.mk (some (.RequestOp_RequestPut (some p)))) =>
    ((st.put p).1, some (.mk (some (.ResponseOp_ResponsePut (some (st.put p).2)))))
  | some (.mk (some (.RequestOp_RequestRange (some q)))) =>
    (st, some (.mk (some (.ResponseOp_ResponseRange (some
      { Header := (st.Range q).Header, Kvs := toKVs (st.Range q).Kvs,
        More := (st.Range q).More, Count := (st.Range q).Count })))))
  | _ => (st, none)

/-- Modelled from the spec: the operations of a branch run in order, one
result per operation. -/
def Store.run (st : Store) : List (Option RequestOp) → Store × List (Option ResponseOp)
  | [] => (st, [])
  | op :: ops =>
    ((Store.run (st.apply op).1 ops).1, (st.apply op).2 :: (Store.run (st.apply op).1 ops).2)

/-- Modelled from the spec: the backend's atomic compare-and-branch `Txn`:
in one step it evaluates the conjunction of the comparisons and runs the
`Success` branch if all hold, the `Failure` branch otherwise; `Succeeded`
tells which branch ran. -/
def Store.Txn (st : Store) (t : TxnRequest) : TxnResponse × Store :=
  let ok := t.Compare.all st.holds
  let branch := if ok then t.Success else t.Failure
  (.mk (some { Revision := (st.run branch).1.Revision }) ok (st.run branch).2, (st.run branch).1)

/-- Modelled from the spec: the bridge over the backend `Store`; every
backend call is one atomic step on the shared store. -/
def storeBridge : KVServerBridge Unit Store :=
  ⟨{ Range := fun _ r st => ((some (st.Range r), none), st)
     Txn := fun _ t st => ((some (st.Txn t).1, none), (st.Txn t).2) }⟩

/-- A store holding `"k"` at modification revision 7, its current
revision. -/
def storeK : Store := { Revision := 7, Records := [recordK] }

/-- A put of value `"w"` under key `"k"`. -/
def putW : PutRequest := { Key := keyK, Value := [119] }

end server

/-! ## Properties -/

namespace server

open etcdserverpb

/-- The loop of `toKVs` appends to `ret` the translation of the non-nil
entries, in order. -/
theorem toKVs_loop (kvs : List (Option KeyValue)) (ret : List (Option mvccpb.KeyValue)) :
    kvs.foldl toKVs.step ret = ret ++ translateNonNil kvs := by
  induction kvs generalizing ret with
  | nil => simp [translateNonNil]
  | cons kv kvs ih =>
    cases kv with
    | none => simpa [toKVs.step, toKV, translateNonNil] using ih ret
    | some x => simp [ih, toKVs.step, toKV, translateNonNil]

/-- When the first entry is not nil, `toKVs` translates every non-nil entry
in order. -/
theorem toKVs_of_head (kvs : List (Option KeyValue)) (h : kvs.head? ≠ some none) :
    toKVs kvs = translateNonNil kvs := by
  cases kvs with
  | nil => simp [toKVs, translateNonNil]
  | cons kv kvs =>
    have h1 : ¬ ((kv :: kvs).length = 0 ∨ (kv :: kvs).head? = some none) := by
      simpa using h
    rw [toKVs, if_neg h1, toKVs_loop]
    simp

/-- When no entry is nil, `toKVs` is `toKV` applied entry by entry. -/
theorem toKVs_of_all_some (kvs : List (Option KeyValue)) (h : ∀ x ∈ kvs, x ≠ none) :
    toKVs kvs = kvs.map toKV := by
  have hf : kvs.filter Option.isSome = kvs := by
    apply List.filter_eq_self.mpr
    intro x hx
    cases x with
    | none => exact absurd rfl (h none hx)
    | some y => rfl
  have hh : kvs.head? ≠ some none := by
    cases kvs with
    | nil => simp
    | cons kv kvs =>
      have := h kv (List.mem_cons_self _ _)
      simpa using this
  rw [toKVs_of_head kvs hh, translateNonNil, hf]

end server

namespace server

open etcdserverpb

/-- C1: a `RangeRequest` with any of the eight unsupported fields set to a
non-default value makes `Range` return an error and no response, without a
single effect (no backend call, no log line) and leaving the backend state
untouched; the outcome is the same for every backend, context and state. -/
theorem Range_unsupported_fails_fast {κ σ : Type} (k : KVServerBridge κ σ) (ctx : κ)
    (r : etcdserverpb.RangeRequest) (s : σ)
    (h : r.KeysOnly = true ∨ r.SortOrder ≠ 0 ∨ r.SortTarget ≠ 0 ∨ r.Serializable = true ∨
      r.MinCreateRevision ≠ 0 ∨ r.MaxCreateRevision ≠ 0 ∨ r.MinModRevision ≠ 0 ∨
      r.MaxModRevision ≠ 0) :
    (∃ err, (k.Range ctx r s).outcome = .ret none (some err)) ∧
    backendCalls (k.Range ctx r s).effects = [] ∧
    (k.Range ctx r s).effects = [] ∧
    (k.Range ctx r s).state = s ∧
    ∀ (κ' σ' : Type) (k' : KVServerBridge κ' σ') (ctx' : κ') (s' : σ'),
      (k'.Range ctx' r s').outcome = (k.Range ctx r s).outcome := by
  have key : ∃ err, ∀ (κ' σ' : Type) (k' : KVServerBridge κ' σ') (ctx' : κ') (s' : σ'),
      k'.Range ctx' r s' = ⟨.ret none (some err), s', []⟩ := by
    by_cases h1 : r.KeysOnly = true
    · exact ⟨unsupported "keysOnly", fun _ _ _ _ _ => by simp [KVServerBridge.Range, h1]⟩
    by_cases h2 : r.MaxCreateRevision = 0
    swap
    · exact ⟨unsupported "maxCreateRevision", fun _ _ _ _ _ => by
        simp [KVServerBridge.Range, h1, h2]⟩
    by_cases h3 : r.SortOrder = 0
    swap
    · exact ⟨unsupported "sortOrder", fun _ _ _ _ _ => by
        simp [KVServerBridge.Range, h1, h2, h3]⟩
    by_cases h4 : r.SortTarget = 0
    swap
    · exact ⟨unsupported "sortTarget", fun _ _ _ _ _ => by
        simp [KVServerBridge.Range, h1, h2, h3, h4]⟩
    by_cases h5 : r.Serializable = true
    · exact ⟨unsupported "serializable", fun _ _ _ _ _ => by
        simp [KVServerBridge.Range, h1, h2, h3, h4, h5]⟩
    by_cases h6 : r.MinModRevision = 0
    swap
    · exact ⟨unsupported "minModRevision", fun _ _ _ _ _ => by
        simp [KVServerBridge.Range, h1, h2, h3, h4, h5, h6]⟩
    by_cases h7 : r.MinCreateRevision = 0
    swap
    · exact ⟨unsupported "minCreateRevision", fun _ _ _ _ _ => by
        simp [KVServerBridge.Range, h1, h2, h3, h4, h5, h6, h7]⟩
    by_cases h8 : r.MaxModRevision = 0
    swap
    · exact ⟨unsupported "maxModRevision", fun _ _ _ _ _ => by
        simp [KVServerBridge.Range, h1, h2, h3, h4, h5, h6, h7, h8]⟩
    exfalso
    simp_all
  obtain ⟨err, hall⟩ := key
  have he := hall κ σ k ctx s
  refine ⟨⟨err, by rw [he]⟩, by rw [he]; rfl, by rw [he], by rw [he], ?_⟩
  intro κ' σ' k' ctx' s'
  rw [hall, he]

/-- C1, witness: a keys-only request against a backend that would answer. -/
theorem Range_unsupported_fails_fast_witness :
    (∃ err, ((scriptedBridge (some {}, none) (none, none)).Range ()
        { Key := keyK, KeysOnly := true } 0).outcome = .ret none (some err)) ∧
    backendCalls ((scriptedBridge (some {}, none) (none, none)).Range ()
        { Key := keyK, KeysOnly := true } 0).effects = [] ∧
    ((scriptedBridge (some {}, none) (none, none)).Range ()
        { Key := keyK, KeysOnly := true } 0).effects = [] ∧
    ((scriptedBridge (some {}, none) (none, none)).Range ()
        { Key := keyK, KeysOnly := true } 0).state = 0 ∧
    ∀ (κ' σ' : Type) (k' : KVServerBridge κ' σ') (ctx' : κ') (s' : σ'),
      (k'.Range ctx' { Key := keyK, KeysOnly := true } s').outcome =
        ((scriptedBridge (some {}, none) (none, none)).Range ()
          { Key := keyK, KeysOnly := true } 0).outcome :=
  Range_unsupported_fails_fast _ () { Key := keyK, KeysOnly := true } 0 (Or.inl rfl)

end server

namespace server

open etcdserverpb

/-- The comparison `Put` builds with the client helpers is
`modRevisionEquals K rev`. -/
theorem Compare_ModRevision_eq (key : Bytes) (rev : Int) :
    clientv3.Compare (clientv3.ModRevision key.toGoString) "=" rev =
      some (modRevisionEquals key rev) := by
  simp [clientv3.Compare, clientv3.ModRevision, Bytes.toGoString, GoString.toBytes,
    modRevisionEquals]

/-- After a successful backend `Range` with a readable first record, `Put`
is the submission of its transaction followed by the reading of the
answer. -/
theorem Put_after_range {κ σ : Type} (k : KVServerBridge κ σ) (ctx : κ) (r : PutRequest)
    (s s1 : σ) (resp : RangeResponse) (rev : Int)
    (hR : k.limited.Range ctx { Key := r.Key } s = ((some resp, none), s1))
    (hrev : Put.rev resp.Kvs = some rev) :
    k.Put ctx r s =
      (match k.limited.Txn ctx (Put.txn r (modRevisionEquals r.Key rev)) s1 with
      | ((_, some err), s2) =>
        ⟨.ret none (some err), s2,
          [.limitedRange ctx { Key := r.Key },
           .limitedTxn ctx (Put.txn r (modRevisionEquals r.Key rev))]⟩
      | ((none, none), s2) =>
        ⟨.panicked, s2,
          [.limitedRange ctx { Key := r.Key },
           .limitedTxn ctx (Put.txn r (modRevisionEquals r.Key rev))]⟩
      | ((some tresp, none), s2) =>
        if tresp.Responses.length = 0 then
          ⟨.ret none (some (fmt.Errorf "broken internal put implementation")), s2,
            [.limitedRange ctx { Key := r.Key },
             .limitedTxn ctx (Put.txn r (modRevisionEquals r.Key rev))]⟩
        else
          ⟨.ret (ResponseOp.GetResponsePut (tresp.Responses.head?.join)) none, s2,
            [.limitedRange ctx { Key := r.Key },
             .limitedTxn ctx (Put.txn r (modRevisionEquals r.Key rev))]⟩) := by
  simp only [KVServerBridge.Put, hR, hrev, Compare_ModRevision_eq]

/-- After a successful backend `Range` with a readable first record, the
effects of `Put` are the `Range` call and the `Txn` call, whatever the
backend answers to the latter. -/
theorem Put_effects_after_range {κ σ : Type} (k : KVServerBridge κ σ) (ctx : κ)
    (r : PutRequest) (s s1 : σ) (resp : RangeResponse) (rev : Int)
    (hR : k.limited.Range ctx { Key := r.Key } s = ((some resp, none), s1))
    (hrev : Put.rev resp.Kvs = some rev) :
    (k.Put ctx r s).effects =
      [.limitedRange ctx { Key := r.Key },
       .limitedTxn ctx (Put.txn r (modRevisionEquals r.Key rev))] := by
  rw [Put_after_range k ctx r s s1 resp rev hR hrev]
  split
  · rfl
  · rfl
  · split_ifs <;> rfl

/-- When the first record of the backend's answer is nil, `Put` panics
before any transaction is built. -/
theorem Put_nil_record {κ σ : Type} (k : KVServerBridge κ σ) (ctx : κ)
    (r : PutRequest) (s s1 : σ) (resp : RangeResponse)
    (hR : k.limited.Range ctx { Key := r.Key } s = ((some resp, none), s1))
    (hrev : Put.rev resp.Kvs = none) :
    k.Put ctx r s = ⟨.panicked, s1, [.limitedRange ctx { Key := r.Key }]⟩ := by
  simp only [KVServerBridge.Put, hR, hrev]

/-- The first effect of `Put` is the backend `Range` call for the exact
key, and it is the only `Range` call. -/
theorem Put_range_first {κ σ : Type} (k : KVServerBridge κ σ) (ctx : κ)
    (r : PutRequest) (s : σ) :
    (k.Put ctx r s).effects.head? = some (.limitedRange ctx { Key := r.Key }) ∧
    rangeCalls (k.Put ctx r s).effects = [{ Key := r.Key }] := by
  rcases hR : k.limited.Range ctx { Key := r.Key } s with ⟨⟨_ | resp, _ | err⟩, s1⟩
  · simp only [KVServerBridge.Put, hR]
    exact ⟨rfl, rfl⟩
  · simp only [KVServerBridge.Put, hR]
    exact ⟨rfl, rfl⟩
  · cases hrev : Put.rev resp.Kvs with
    | none =>
      rw [Put_nil_record k ctx r s s1 resp hR hrev]
      exact ⟨rfl, rfl⟩
    | some rev =>
      rw [Put_effects_after_range k ctx r s s1 resp rev hR hrev]
      exact ⟨rfl, rfl⟩
  · simp only [KVServerBridge.Put, hR]
    exact ⟨rfl, rfl⟩

end server

namespace server

open etcdserverpb

/-- The revision `Put` reads off the backend's records is `rev` exactly when
the records are empty and `rev` is `0`, or the first record is non-nil and
`rev` is its `ModRevision`. -/
theorem Put_rev_eq_some_iff (kvs : List (Option KeyValue)) (rev : Int) :
    Put.rev kvs = some rev ↔
      (kvs = [] ∧ rev = 0) ∨
      ∃ (kv : KeyValue) (rest : List (Option KeyValue)),
        kvs = some kv :: rest ∧ rev = kv.ModRevision := by
  cases kvs with
  | nil =>
    have h0 : Put.rev ([] : List (Option KeyValue)) = some 0 := rfl
    rw [h0]
    constructor
    · intro h
      exact Or.inl ⟨rfl, (Option.some.inj h).symm⟩
    · rintro (⟨_, h⟩ | ⟨kv, rest, h, _⟩)
      · rw [h]
      · exact absurd h (by simp)
  | cons x rest =>
    cases x with
    | none =>
      have h0 : Put.rev (none :: rest) = none := by simp [Put.rev]
      rw [h0]
      constructor
      · intro h
        exact absurd h (by simp)
      · rintro (⟨h, _⟩ | ⟨kv, rest', h, _⟩)
        · exact absurd h (by simp)
        · exact absurd h (by simp)
    | some kv =>
      have h0 : Put.rev (some kv :: rest) = some kv.ModRevision := by simp [Put.rev]
      rw [h0]
      constructor
      · intro h
        exact Or.inr ⟨kv, rest, rfl, (Option.some.inj h).symm⟩
      · rintro (⟨h, _⟩ | ⟨kv', rest', h, h'⟩)
        · exact absurd h (by simp)
        · have hk : kv = kv' := by
            have := (List.cons.inj h).1
            exact Option.some.inj this
          rw [h', hk]

/-- After a successful backend `Range` with a readable first record, the
backend state `Put` leaves is the one the backend's `Txn` produced for the
submitted transaction. -/
theorem Put_state_after_range {κ σ : Type} (k : KVServerBridge κ σ) (ctx : κ)
    (r : PutRequest) (s s1 : σ) (resp : RangeResponse) (rev : Int)
    (hR : k.limited.Range ctx { Key := r.Key } s = ((some resp, none), s1))
    (hrev : Put.rev resp.Kvs = some rev) :
    (k.Put ctx r s).state =
      (k.limited.Txn ctx (Put.txn r (modRevisionEquals r.Key rev)) s1).2 := by
  rw [Put_after_range k ctx r s s1 resp rev hR hrev]
  split <;> rename_i heq <;> rw [heq]
  split_ifs <;> rfl

/-- After a successful backend `Range` with a readable first record, an
error of the backend's `Txn` on the submitted transaction is what `Put`
returns. -/
theorem Put_txn_error_after_range {κ σ : Type} (k : KVServerBridge κ σ) (ctx : κ)
    (r : PutRequest) (s s1 s2 : σ) (resp : RangeResponse) (rev : Int)
    (tresp : Option TxnResponse) (e : GoError)
    (hR : k.limited.Range ctx { Key := r.Key } s = ((some resp, none), s1))
    (hrev : Put.rev resp.Kvs = some rev)
    (hT : k.limited.Txn ctx (Put.txn r (modRevisionEquals r.Key rev)) s1 =
      ((tresp, some e), s2)) :
    (k.Put ctx r s).outcome = .ret none (some e) := by
  rw [Put_after_range k ctx r s s1 resp rev hR hrev, hT]
  cases tresp <;> rfl

/-- C2: after a successful backend `Range`, let the observed revision be `0`
when the answer holds no record and the `ModRevision` of the first record
otherwise.  Then `Put` calls the backend twice, the `Range` call and then
the `Txn` call, and the one transaction it submits has exactly one `Compare`
(key `K`, target `MOD`, operator `EQUAL`, expected value the observed
revision), the `Success` branch `[Put r]` with `r` unchanged and the
`Failure` branch `[Range { Key := K }]`; the backend really runs that
transaction: the state `Put` leaves is the one the backend's `Txn` produced
for it, and an error of that `Txn` is what `Put` returns.  Moreover every
transaction `Put` submits is of that form. -/
theorem Put_submits_guarded_txn {κ σ : Type} (k : KVServerBridge κ σ) (ctx : κ)
    (r : PutRequest) (s s1 : σ) (resp : RangeResponse)
    (hR : k.limited.Range ctx { Key := r.Key } s = ((some resp, none), s1)) :
    (∀ rev : Int,
      ((resp.Kvs = [] ∧ rev = 0) ∨
        ∃ (kv : KeyValue) (rest : List (Option KeyValue)),
          resp.Kvs = some kv :: rest ∧ rev = kv.ModRevision) →
      txnCalls (k.Put ctx r s).effects = [TxnRequest.mk
        [some { Result := .EQUAL, Target := .MOD, Key := r.Key,
                TargetUnion := some (.Compare_ModRevision rev), RangeEnd := [] }]
        [some (.mk (some (.RequestOp_RequestPut (some r))))]
        [some (.mk (some (.RequestOp_RequestRange (some { Key := r.Key }))))]] ∧
      backendCalls (k.Put ctx r s).effects =
        [.limitedRange ctx { Key := r.Key },
         .limitedTxn ctx (TxnRequest.mk
          [some { Result := .EQUAL, Target := .MOD, Key := r.Key,
                  TargetUnion := some (.Compare_ModRevision rev), RangeEnd := [] }]
          [some (.mk (some (.RequestOp_RequestPut (some r))))]
          [some (.mk (some (.RequestOp_RequestRange (some { Key := r.Key }))))])] ∧
      (k.Put ctx r s).state = (k.limited.Txn ctx (TxnRequest.mk
        [some { Result := .EQUAL, Target := .MOD, Key := r.Key,
                TargetUnion := some (.Compare_ModRevision rev), RangeEnd := [] }]
        [some (.mk (some (.RequestOp_RequestPut (some r))))]
        [some (.mk (some (.RequestOp_RequestRange (some { Key := r.Key }))))]) s1).2 ∧
      ∀ (tresp : Option TxnResponse) (e : GoError) (s2 : σ),
        k.limited.Txn ctx (TxnRequest.mk
          [some { Result := .EQUAL, Target := .MOD, Key := r.Key,
                  TargetUnion := some (.Compare_ModRevision rev), RangeEnd := [] }]
          [some (.mk (some (.RequestOp_RequestPut (some r))))]
          [some (.mk (some (.RequestOp_RequestRange (some { Key := r.Key }))))]) s1 =
          ((tresp, some e), s2) →
        (k.Put ctx r s).outcome = .ret none (some e)) ∧
    (∀ t ∈ txnCalls (k.Put ctx r s).effects, ∃ rev : Int,
      ((resp.Kvs = [] ∧ rev = 0) ∨
        ∃ (kv : KeyValue) (rest : List (Option KeyValue)),
          resp.Kvs = some kv :: rest ∧ rev = kv.ModRevision) ∧
      t = TxnRequest.mk
        [some { Result := .EQUAL, Target := .MOD, Key := r.Key,
                TargetUnion := some (.Compare_ModRevision rev), RangeEnd := [] }]
        [some (.mk (some (.RequestOp_RequestPut (some r))))]
        [some (.mk (some (.RequestOp_RequestRange (some { Key := r.Key }))))]) := by
  have heff : ∀ rev, Put.rev resp.Kvs = some rev →
      (k.Put ctx r s).effects =
        [.limitedRange ctx { Key := r.Key },
         .limitedTxn ctx (Put.txn r (modRevisionEquals r.Key rev))] :=
    fun rev hrev => Put_effects_after_range k ctx r s s1 resp rev hR hrev
  constructor
  · intro rev hobs
    have hrev : Put.rev resp.Kvs = some rev := (Put_rev_eq_some_iff resp.Kvs rev).mpr hobs
    refine ⟨?_, ?_, ?_, ?_⟩
    · rw [heff rev hrev]
      rfl
    · rw [heff rev hrev]
      rfl
    · exact Put_state_after_range k ctx r s s1 resp rev hR hrev
    · intro tresp e s2 hT
      exact Put_txn_error_after_range k ctx r s s1 s2 resp rev tresp e hR hrev hT
  · intro t ht
    cases hrev : Put.rev resp.Kvs with
    | none =>
      rw [Put_nil_record k ctx r s s1 resp hR hrev] at ht
      simp [txnCalls] at ht
    | some rev =>
      rw [heff rev hrev] at ht
      have ht' : t = Put.txn r (modRevisionEquals r.Key rev) := by
        simpa [txnCalls] using ht
      exact ⟨rev, (Put_rev_eq_some_iff resp.Kvs rev).mp hrev, ht'⟩

/-- C2, witness: the put of `"k"` against a backend holding `"k"` at
modification revision 7 submits the transaction guarded by revision 7, as
its second backend call, and leaves the backend in the state that call
produced. -/
theorem Put_submits_guarded_txn_witness :
    txnCalls ((scriptedBridge (some rangeRespK, none) (some txnRespPut, none)).Put ()
        putK 0).effects = [TxnRequest.mk
      [some { Result := .EQUAL, Target := .MOD, Key := keyK,
              TargetUnion := some (.Compare_ModRevision 7), RangeEnd := [] }]
      [some (.mk (some (.RequestOp_RequestPut (some putK))))]
      [some (.mk (some (.RequestOp_RequestRange (some { Key := keyK }))))]] ∧
    backendCalls ((scriptedBridge (some rangeRespK, none) (some txnRespPut, none)).Put ()
        putK 0).effects =
      [.limitedRange () { Key := keyK },
       .limitedTxn () (TxnRequest.mk
        [some { Result := .EQUAL, Target := .MOD, Key := keyK,
                TargetUnion := some (.Compare_ModRevision 7), RangeEnd := [] }]
        [some (.mk (some (.RequestOp_RequestPut (some putK))))]
        [some (.mk (some (.RequestOp_RequestRange (some { Key := keyK }))))])] ∧
    ((scriptedBridge (some rangeRespK, none) (some txnRespPut, none)).Put ()
        putK 0).state = 2 :=
  have h := (Put_submits_guarded_txn
    (scriptedBridge (some rangeRespK, none) (some txnRespPut, none))
    () putK 0 1 rangeRespK rfl).1 7 (Or.inr ⟨recordK, [], rfl, rfl⟩)
  ⟨h.1, h.2.1, h.2.2.1⟩

/-- C3: `Put` first calls the backend's `Range` with the request whose `Key`
is `K` and whose other fields are default, and calls it only once; after a
successful answer the revision written into the `Compare` is `0` when the
answer holds no record and the `ModRevision` of the first record
otherwise. -/
theorem Put_observes_revision {κ σ : Type} (k : KVServerBridge κ σ) (ctx : κ)
    (r : PutRequest) (s : σ) :
    (k.Put ctx r s).effects.head? = some (.limitedRange ctx { Key := r.Key }) ∧
    rangeCalls (k.Put ctx r s).effects = [{ Key := r.Key }] ∧
    ∀ (resp : RangeResponse) (s1 : σ),
      k.limited.Range ctx { Key := r.Key } s = ((some resp, none), s1) →
      (resp.Kvs = [] →
        (txnCalls (k.Put ctx r s).effects).map TxnRequest.Compare =
          [[some { Result := .EQUAL, Target := .MOD, Key := r.Key,
                   TargetUnion := some (.Compare_ModRevision 0), RangeEnd := [] }]]) ∧
      (∀ (kv : KeyValue) (rest : List (Option KeyValue)), resp.Kvs = some kv :: rest →
        (txnCalls (k.Put ctx r s).effects).map TxnRequest.Compare =
          [[some { Result := .EQUAL, Target := .MOD, Key := r.Key,
                   TargetUnion := some (.Compare_ModRevision kv.ModRevision),
                   RangeEnd := [] }]]) := by
  refine ⟨(Put_range_first k ctx r s).1, (Put_range_first k ctx r s).2, ?_⟩
  intro resp s1 hR
  constructor
  · intro hk
    have hrev : Put.rev resp.Kvs = some 0 := by rw [hk]; rfl
    rw [Put_effects_after_range k ctx r s s1 resp 0 hR hrev]
    rfl
  · intro kv rest hk
    have hrev : Put.rev resp.Kvs = some kv.ModRevision := by rw [hk]; simp [Put.rev]
    rw [Put_effects_after_range k ctx r s s1 resp kv.ModRevision hR hrev]
    rfl

/-- C3, witness: with `"k"` stored at modification revision 7 (and a second
record behind it), the comparison expects revision 7. -/
theorem Put_observes_revision_witness :
    (txnCalls ((scriptedBridge (some { Kvs := [some recordK, some recordL] }, none)
        (some txnRespPut, none)).Put () putK 0).effects).map TxnRequest.Compare =
      [[some { Result := .EQUAL, Target := .MOD, Key := keyK,
               TargetUnion := some (.Compare_ModRevision 7), RangeEnd := [] }]] :=
  ((Put_observes_revision (scriptedBridge (some { Kvs := [some recordK, some recordL] }, none)
      (some txnRespPut, none)) () putK 0).2.2
    { Kvs := [some recordK, some recordL] } 1 rfl).2 recordK [some recordL] rfl

end server

namespace server

open etcdserverpb

/-- C4: when the backend's `Range` succeeds and its `Txn` answers that the
`Success` branch ran (`Succeeded = true`) with the put result `P` as first
operation result, `Put` returns exactly `P` and a nil error. -/
theorem Put_returns_embedded_response {κ σ : Type} (k : KVServerBridge κ σ) (ctx : κ)
    (r : PutRequest) (s s1 s2 : σ) (resp : RangeResponse) (rev : Int) (tresp : TxnResponse)
    (P : Option PutResponse) (rest : List (Option ResponseOp))
    (hR : k.limited.Range ctx { Key := r.Key } s = ((some resp, none), s1))
    (hrev : Put.rev resp.Kvs = some rev)
    (hT : k.limited.Txn ctx (Put.txn r (modRevisionEquals r.Key rev)) s1 =
      ((some tresp, none), s2))
    (_hS : tresp.Succeeded = true)
    (hP : tresp.Responses = some (.mk (some (.ResponseOp_ResponsePut P))) :: rest) :
    (k.Put ctx r s).outcome = .ret P none := by
  rw [Put_after_range k ctx r s s1 resp rev hR hrev, hT]
  simp [hP, ResponseOp.GetResponsePut, ResponseOp.GetResponse]

/-- C4, witness: the put of `"k"` at revision 7, answered by the put result
with header revision 8. -/
theorem Put_returns_embedded_response_witness :
    ((scriptedBridge (some rangeRespK, none) (some txnRespPut, none)).Put () putK 0).outcome =
      .ret (some { Header := some { Revision := 8 } }) none :=
  Put_returns_embedded_response (scriptedBridge (some rangeRespK, none) (some txnRespPut, none))
    () putK 0 1 2 rangeRespK 7 txnRespPut (some { Header := some { Revision := 8 } }) []
    rfl rfl rfl rfl rfl

/-- When the backend's `Txn` answers with a first operation result that is
a range result, `Put` returns the pair `(nil, nil)`, whatever `Succeeded`
says. -/
theorem Put_nil_nil_of_range_result {κ σ : Type} (k : KVServerBridge κ σ) (ctx : κ)
    (r : PutRequest) (s s1 s2 : σ) (resp : RangeResponse) (rev : Int) (tresp : TxnResponse)
    (R : Option etcdserverpb.RangeResponse) (rest : List (Option ResponseOp))
    (hR : k.limited.Range ctx { Key := r.Key } s = ((some resp, none), s1))
    (hrev : Put.rev resp.Kvs = some rev)
    (hT : k.limited.Txn ctx (Put.txn r (modRevisionEquals r.Key rev)) s1 =
      ((some tresp, none), s2))
    (hP : tresp.Responses = some (.mk (some (.ResponseOp_ResponseRange R))) :: rest) :
    (k.Put ctx r s).outcome = .ret none none := by
  rw [Put_after_range k ctx r s s1 resp rev hR hrev, hT]
  simp [hP, ResponseOp.GetResponsePut, ResponseOp.GetResponse]

/-- C5 (the code departs from it): `"k"` is read at modification revision 7,
another writer moves it to revision 8, the transaction runs its `Failure`
branch (`Succeeded = false`, first result the range result), and `Put`
returns a nil response together with a nil error, after both backend
calls. -/
theorem Put_conflict_returns_nil_nil :
    txnRespConflict.Succeeded = false ∧
    ((scriptedBridge (some rangeRespK, none) (some txnRespConflict, none)).Put ()
      putK 0).outcome = .ret none none ∧
    ((scriptedBridge (some rangeRespK, none) (some txnRespConflict, none)).Put ()
      putK 0).state = 2 := by
  refine ⟨rfl, ?_, rfl⟩
  exact Put_nil_nil_of_range_result _ () putK 0 1 2 rangeRespK 7 txnRespConflict _ []
    rfl rfl rfl rfl

/-- C6: when the backend's `Txn` returns, without error, a response whose
list of operation results is empty, `Put` returns no response and the error
"broken internal put implementation". -/
theorem Put_empty_responses_is_error {κ σ : Type} (k : KVServerBridge κ σ) (ctx : κ)
    (r : PutRequest) (s s1 s2 : σ) (resp : RangeResponse) (rev : Int) (tresp : TxnResponse)
    (hR : k.limited.Range ctx { Key := r.Key } s = ((some resp, none), s1))
    (hrev : Put.rev resp.Kvs = some rev)
    (hT : k.limited.Txn ctx (Put.txn r (modRevisionEquals r.Key rev)) s1 =
      ((some tresp, none), s2))
    (hE : tresp.Responses = []) :
    (k.Put ctx r s).outcome = .ret none (some ⟨"broken internal put implementation"⟩) ∧
    (k.Put ctx r s).outcome ≠ .ret none none ∧
    ∀ p : PutResponse, (k.Put ctx r s).outcome ≠ .ret (some p) none := by
  have h : (k.Put ctx r s).outcome =
      .ret none (some ⟨"broken internal put implementation"⟩) := by
    rw [Put_after_range k ctx r s s1 resp rev hR hrev, hT]
    simp [hE, fmt.Errorf]
  refine ⟨h, ?_, ?_⟩
  · rw [h]; simp
  · intro p; rw [h]; simp

/-- C6, witness: the put of `"k"` against a backend whose transaction
answers with no operation result. -/
theorem Put_empty_responses_is_error_witness :
    ((scriptedBridge (some rangeRespK, none) (some txnRespEmpty, none)).Put ()
        putK 0).outcome = .ret none (some ⟨"broken internal put implementation"⟩) ∧
    ((scriptedBridge (some rangeRespK, none) (some txnRespEmpty, none)).Put ()
        putK 0).outcome ≠ .ret none none ∧
    ∀ p : PutResponse,
      ((scriptedBridge (some rangeRespK, none) (some txnRespEmpty, none)).Put ()
        putK 0).outcome ≠ .ret (some p) none :=
  Put_empty_responses_is_error (scriptedBridge (some rangeRespK, none) (some txnRespEmpty, none))
    () putK 0 1 2 rangeRespK 7 txnRespEmpty rfl rfl rfl rfl

end server

namespace server

open etcdserverpb

/-- A request with the eight unsupported modifiers at their default passes
validation: `Range` is the backend call followed by the translation of the
answer. -/
theorem Range_of_supported {κ σ : Type} (k : KVServerBridge κ σ) (ctx : κ)
    (r : etcdserverpb.RangeRequest) (s : σ)
    (hv : r.KeysOnly = false ∧ r.SortOrder = 0 ∧ r.SortTarget = 0 ∧ r.Serializable = false ∧
      r.MinCreateRevision = 0 ∧ r.MaxCreateRevision = 0 ∧ r.MinModRevision = 0 ∧
      r.MaxModRevision = 0) :
    k.Range ctx r s =
      (match k.limited.Range ctx r s with
      | ((_, some err), s1) =>
        ⟨.ret none (some err), s1,
          [.limitedRange ctx r,
           .logrusErrorf "error while range on %s %s: %v" [r.Key, r.RangeEnd] err]⟩
      | ((none, none), s1) => ⟨.panicked, s1, [.limitedRange ctx r]⟩
      | ((some resp, none), s1) =>
        ⟨.ret (some { More := resp.More
                      Count := resp.Count
                      Header := resp.Header
                      Kvs := toKVs resp.Kvs }) none, s1, [.limitedRange ctx r]⟩) := by
  obtain ⟨h1, h2, h3, h4, h5, h6, h7, h8⟩ := hv
  simp [KVServerBridge.Range, h1, h2, h3, h4, h5, h6, h7, h8]

/-- C7: for a request with the eight unsupported modifiers at their default
and a successful backend answer whose records are all non-nil, `Range`
returns a nil error and a response with the backend's `More`, `Count` and
`Header`, whose `Kvs` has the length of the backend's record list, entry `i`
being `toKV` of the backend's record `i`, that is the wire record with the
same `Key`, `Value`, `Lease`, `CreateRevision` and `ModRevision`. -/
theorem Range_translates_answer {κ σ : Type} (k : KVServerBridge κ σ) (ctx : κ)
    (r : etcdserverpb.RangeRequest) (s s1 : σ) (resp : RangeResponse)
    (hv : r.KeysOnly = false ∧ r.SortOrder = 0 ∧ r.SortTarget = 0 ∧ r.Serializable = false ∧
      r.MinCreateRevision = 0 ∧ r.MaxCreateRevision = 0 ∧ r.MinModRevision = 0 ∧
      r.MaxModRevision = 0)
    (hR : k.limited.Range ctx r s = ((some resp, none), s1))
    (hnn : ∀ x ∈ resp.Kvs, x ≠ none) :
    ∃ out : etcdserverpb.RangeResponse,
      (k.Range ctx r s).outcome = .ret (some out) none ∧
      out.More = resp.More ∧ out.Count = resp.Count ∧ out.Header = resp.Header ∧
      out.Kvs.length = resp.Kvs.length ∧
      (∀ i : Nat, out.Kvs[i]? = (resp.Kvs[i]?).map toKV) ∧
      (∀ (i : Nat) (kv : KeyValue), resp.Kvs[i]? = some (some kv) →
        ∃ w : mvccpb.KeyValue, out.Kvs[i]? = some (some w) ∧
          w.Key = kv.Key.toBytes ∧ w.Value = kv.Value ∧ w.Lease = kv.Lease ∧
          w.CreateRevision = kv.CreateRevision ∧ w.ModRevision = kv.ModRevision) := by
  refine ⟨{ More := resp.More, Count := resp.Count, Header := resp.Header,
            Kvs := toKVs resp.Kvs }, ?_, rfl, rfl, rfl, ?_, ?_, ?_⟩
  · rw [Range_of_supported k ctx r s hv, hR]
  · simp [toKVs_of_all_some resp.Kvs hnn]
  · intro i
    simp [toKVs_of_all_some resp.Kvs hnn]
  · intro i kv hi
    refine ⟨{ Key := kv.Key.toBytes, Value := kv.Value, Lease := kv.Lease,
              CreateRevision := kv.CreateRevision, ModRevision := kv.ModRevision },
      ?_, rfl, rfl, rfl, rfl, rfl⟩
    simp [toKVs_of_all_some resp.Kvs hnn, hi, toKV]

/-- C7, witness: an exact-key request answered with two records. -/
theorem Range_translates_answer_witness :
    ∃ out : etcdserverpb.RangeResponse,
      ((scriptedBridge (some rangeRespTwo, none) (none, none)).Range ()
        { Key := keyK } 0).outcome = .ret (some out) none ∧
      out.More = true ∧ out.Count = 5 ∧ out.Header = some { Revision := 9 } ∧
      out.Kvs.length = 2 ∧
      (∀ i : Nat, out.Kvs[i]? = ([some recordK, some recordL][i]?).map toKV) ∧
      (∀ (i : Nat) (kv : KeyValue), [some recordK, some recordL][i]? = some (some kv) →
        ∃ w : mvccpb.KeyValue, out.Kvs[i]? = some (some w) ∧
          w.Key = kv.Key.toBytes ∧ w.Value = kv.Value ∧ w.Lease = kv.Lease ∧
          w.CreateRevision = kv.CreateRevision ∧ w.ModRevision = kv.ModRevision) :=
  Range_translates_answer (scriptedBridge (some rangeRespTwo, none) (none, none))
    () { Key := keyK } 0 1 rangeRespTwo
    ⟨rfl, rfl, rfl, rfl, rfl, rfl, rfl, rfl⟩ rfl (by decide)

/-- C8 (the code departs from it): on the input `[nil, recordK]` the guard
on the first entry makes `toKVs` return the empty sequence, where the
translation of the non-nil entries is `[toKV recordK]`; the same nil entry
placed after the record is skipped by the loop and the record is kept. -/
theorem toKVs_nil_head_drops_records :
    toKVs [none, some recordK] = [] ∧
    translateNonNil [none, some recordK] = [toKV (some recordK)] ∧
    toKVs [none, some recordK] ≠ translateNonNil [none, some recordK] ∧
    toKVs [some recordK, none] = [toKV (some recordK)] := by
  decide

/-- C9: `toKV` of a non-nil record is a non-nil wire record with the same
`Key`, `Value`, `Lease`, `CreateRevision` and `ModRevision`; converting it
back field by field gives the record again, so `toKV` is injective on
non-nil records; and `toKV` of nil is nil. -/
theorem toKV_roundtrip :
    (∀ kv : KeyValue, ∃ w : mvccpb.KeyValue, toKV (some kv) = some w ∧
      w.Key = kv.Key.toBytes ∧ w.Value = kv.Value ∧ w.Lease = kv.Lease ∧
      w.CreateRevision = kv.CreateRevision ∧ w.ModRevision = kv.ModRevision) ∧
    (∀ kv : KeyValue, (toKV (some kv)).map wireToKeyValue = some kv) ∧
    (∀ kv kv' : KeyValue, toKV (some kv) = toKV (some kv') → kv = kv') ∧
    toKV none = none := by
  have hrt : ∀ kv : KeyValue, (toKV (some kv)).map wireToKeyValue = some kv := by
    intro kv
    cases kv
    rfl
  refine ⟨fun kv => ⟨_, rfl, rfl, rfl, rfl, rfl, rfl⟩, hrt, ?_, rfl⟩
  intro kv kv' h
  have h1 := hrt kv
  rw [h, hrt kv'] at h1
  exact (Option.some.inj h1).symm

/-- C10: `toKVs` of the empty sequence and of the sequence holding one nil
entry is empty (length 0), not the one-element sequence holding nil; and a
`Range` that passes validation and whose backend answers with zero records
returns a response whose `Kvs` is empty. -/
theorem toKVs_empty_input {κ σ : Type} (k : KVServerBridge κ σ) (ctx : κ)
    (r : etcdserverpb.RangeRequest) (s s1 : σ) (resp : RangeResponse)
    (hv : r.KeysOnly = false ∧ r.SortOrder = 0 ∧ r.SortTarget = 0 ∧ r.Serializable = false ∧
      r.MinCreateRevision = 0 ∧ r.MaxCreateRevision = 0 ∧ r.MinModRevision = 0 ∧
      r.MaxModRevision = 0)
    (hR : k.limited.Range ctx r s = ((some resp, none), s1))
    (hk : resp.Kvs = []) :
    toKVs [] = [] ∧ (toKVs []).length = 0 ∧
    toKVs [none] = [] ∧ (toKVs [none]).length = 0 ∧ toKVs [none] ≠ [none] ∧
    ∃ out : etcdserverpb.RangeResponse,
      (k.Range ctx r s).outcome = .ret (some out) none ∧ out.Kvs = [] ∧
        out.Kvs.length = 0 := by
  refine ⟨by decide, by decide, by decide, by decide, by decide,
    { More := resp.More, Count := resp.Count, Header := resp.Header, Kvs := [] }, ?_, rfl, rfl⟩
  rw [Range_of_supported k ctx r s hv, hR]
  simp [hk, toKVs]

/-- C10, witness: an exact-key request for a key the backend does not
hold. -/
theorem toKVs_empty_input_witness :
    toKVs [] = [] ∧ (toKVs []).length = 0 ∧
    toKVs [none] = [] ∧ (toKVs [none]).length = 0 ∧ toKVs [none] ≠ [none] ∧
    ∃ out : etcdserverpb.RangeResponse,
      ((scriptedBridge (some { Header := some { Revision := 9 } }, none) (none, none)).Range ()
        { Key := keyK } 0).outcome = .ret (some out) none ∧ out.Kvs = [] ∧
        out.Kvs.length = 0 :=
  toKVs_empty_input
    (scriptedBridge (some { Header := some { Revision := 9 } }, none) (none, none))
    () { Key := keyK } 0 1 { Header := some { Revision := 9 } }
    ⟨rfl, rfl, rfl, rfl, rfl, rfl, rfl, rfl⟩ rfl rfl

end server

namespace server

open etcdserverpb

/-- A request that sets an unsupported field is answered with the error
naming the first such field, with no effect on the backend. -/
theorem Range_of_unsupported {κ σ : Type} (k : KVServerBridge κ σ) (ctx : κ)
    (r : etcdserverpb.RangeRequest) (s : σ)
    (h : r.KeysOnly = true ∨ r.SortOrder ≠ 0 ∨ r.SortTarget ≠ 0 ∨ r.Serializable = true ∨
      r.MinCreateRevision ≠ 0 ∨ r.MaxCreateRevision ≠ 0 ∨ r.MinModRevision ≠ 0 ∨
      r.MaxModRevision ≠ 0) :
    ∃ name, firstUnsupportedField r = some name ∧ (name, true) ∈ unsupportedFields r ∧
      k.Range ctx r s = ⟨.ret none (some ⟨name ++ " is unsupported"⟩), s, []⟩ := by
  by_cases h1 : r.KeysOnly = true
  · exact ⟨"keysOnly", by simp [firstUnsupportedField, unsupportedFields, h1],
      by simp [unsupportedFields, h1], by simp [KVServerBridge.Range, unsupported, h1]⟩
  by_cases h2 : r.MaxCreateRevision = 0
  swap
  · exact ⟨"maxCreateRevision", by simp [firstUnsupportedField, unsupportedFields, h1, h2],
      by simp [unsupportedFields, h2], by simp [KVServerBridge.Range, unsupported, h1, h2]⟩
  by_cases h3 : r.SortOrder = 0
  swap
  · exact ⟨"sortOrder", by simp [firstUnsupportedField, unsupportedFields, h1, h2, h3],
      by simp [unsupportedFields, h3],
      by simp [KVServerBridge.Range, unsupported, h1, h2, h3]⟩
  by_cases h4 : r.SortTarget = 0
  swap
  · exact ⟨"sortTarget", by simp [firstUnsupportedField, unsupportedFields, h1, h2, h3, h4],
      by simp [unsupportedFields, h4],
      by simp [KVServerBridge.Range, unsupported, h1, h2, h3, h4]⟩
  by_cases h5 : r.Serializable = true
  · exact ⟨"serializable",
      by simp [firstUnsupportedField, unsupportedFields, h1, h2, h3, h4, h5],
      by simp [unsupportedFields, h5],
      by simp [KVServerBridge.Range, unsupported, h1, h2, h3, h4, h5]⟩
  by_cases h6 : r.MinModRevision = 0
  swap
  · exact ⟨"minModRevision",
      by simp [firstUnsupportedField, unsupportedFields, h1, h2, h3, h4, h5, h6],
      by simp [unsupportedFields, h6],
      by simp [KVServerBridge.Range, unsupported, h1, h2, h3, h4, h5, h6]⟩
  by_cases h7 : r.MinCreateRevision = 0
  swap
  · exact ⟨"minCreateRevision",
      by simp [firstUnsupportedField, unsupportedFields, h1, h2, h3, h4, h5, h6, h7],
      by simp [unsupportedFields, h7],
      by simp [KVServerBridge.Range, unsupported, h1, h2, h3, h4, h5, h6, h7]⟩
  by_cases h8 : r.MaxModRevision = 0
  swap
  · exact ⟨"maxModRevision",
      by simp [firstUnsupportedField, unsupportedFields, h1, h2, h3, h4, h5, h6, h7, h8],
      by simp [unsupportedFields, h8],
      by simp [KVServerBridge.Range, unsupported, h1, h2, h3, h4, h5, h6, h7, h8]⟩
  exfalso
  simp_all

end server

namespace server

open etcdserverpb

/-- C11: when `Range` rejects a request (one of the eight unsupported fields
is set), the error message is exactly `"<fieldName> is unsupported"`, where
`fieldName` is one of the eight names, names a field the request sets to a
non-default value, and is the first such field in the order keysOnly,
maxCreateRevision, sortOrder, sortTarget, serializable, minModRevision,
minCreateRevision, maxModRevision. -/
theorem Range_rejection_message {κ σ : Type} (k : KVServerBridge κ σ) (ctx : κ)
    (r : etcdserverpb.RangeRequest) (s : σ)
    (h : r.KeysOnly = true ∨ r.SortOrder ≠ 0 ∨ r.SortTarget ≠ 0 ∨ r.Serializable = true ∨
      r.MinCreateRevision ≠ 0 ∨ r.MaxCreateRevision ≠ 0 ∨ r.MinModRevision ≠ 0 ∨
      r.MaxModRevision ≠ 0) :
    ∃ name : String,
      name ∈ ["keysOnly", "maxCreateRevision", "sortOrder", "sortTarget", "serializable",
        "minModRevision", "minCreateRevision", "maxModRevision"] ∧
      (name, true) ∈ unsupportedFields r ∧
      firstUnsupportedField r = some name ∧
      (k.Range ctx r s).outcome = .ret none (some ⟨name ++ " is unsupported"⟩) := by
  obtain ⟨name, hfirst, hmem, hrun⟩ := Range_of_unsupported k ctx r s h
  refine ⟨name, ?_, hmem, hfirst, by rw [hrun]⟩
  have hn := List.mem_map_of_mem Prod.fst hmem
  simpa [unsupportedFields] using hn

/-- C11, witness: a request that sets `sortOrder` and `maxModRevision` is
rejected with the message naming `sortOrder`, the earlier of the two. -/
theorem Range_rejection_message_witness :
    firstUnsupportedField rangeReqSorted = some "sortOrder" ∧
    ((scriptedBridge (some {}, none) (none, none)).Range () rangeReqSorted 0).outcome =
      .ret none (some ⟨"sortOrder is unsupported"⟩) := by
  obtain ⟨name, _, _, hfirst, hout⟩ :=
    Range_rejection_message (scriptedBridge (some {}, none) (none, none)) () rangeReqSorted 0
      (Or.inr (Or.inl (by decide)))
  have hs : firstUnsupportedField rangeReqSorted = some "sortOrder" := by decide
  have hname : name = "sortOrder" := Option.some.inj (hfirst.symm.trans hs)
  subst hname
  exact ⟨hs, hout⟩

end server

namespace server

open etcdserverpb

/-- C12: a request whose eight unsupported modifiers are at their default,
whatever its `Key`, `RangeEnd`, `Limit`, `Revision` and `CountOnly`, makes
`Range` call the backend exactly once, with a `Range` call that carries the
request unchanged (and the caller's context), whatever the backend
answers. -/
theorem Range_forwards_request {κ σ : Type} (k : KVServerBridge κ σ) (ctx : κ)
    (r : etcdserverpb.RangeRequest) (s : σ)
    (hv : r.KeysOnly = false ∧ r.SortOrder = 0 ∧ r.SortTarget = 0 ∧ r.Serializable = false ∧
      r.MinCreateRevision = 0 ∧ r.MaxCreateRevision = 0 ∧ r.MinModRevision = 0 ∧
      r.MaxModRevision = 0) :
    backendCalls (k.Range ctx r s).effects = [.limitedRange ctx r] ∧
    rangeCalls (k.Range ctx r s).effects = [r] ∧
    txnCalls (k.Range ctx r s).effects = [] ∧
    (k.Range ctx r s).state = (k.limited.Range ctx r s).2 := by
  rw [Range_of_supported k ctx r s hv]
  split <;> rename_i heq <;> rw [heq] <;> exact ⟨rfl, rfl, rfl, rfl⟩

/-- C12, witness: a request with key, range end, limit, revision and
count-only set reaches the backend as it is. -/
theorem Range_forwards_request_witness :
    backendCalls ((scriptedBridge (some rangeRespTwo, none) (none, none)).Range ()
      rangeReqSupported 0).effects = [.limitedRange () rangeReqSupported] ∧
    rangeCalls ((scriptedBridge (some rangeRespTwo, none) (none, none)).Range ()
      rangeReqSupported 0).effects = [rangeReqSupported] ∧
    txnCalls ((scriptedBridge (some rangeRespTwo, none) (none, none)).Range ()
      rangeReqSupported 0).effects = [] ∧
    ((scriptedBridge (some rangeRespTwo, none) (none, none)).Range ()
      rangeReqSupported 0).state =
      ((scriptedBridge (some rangeRespTwo, none) (none, none)).limited.Range ()
        rangeReqSupported 0).2 :=
  Range_forwards_request (scriptedBridge (some rangeRespTwo, none) (none, none)) ()
    rangeReqSupported 0 ⟨rfl, rfl, rfl, rfl, rfl, rfl, rfl, rfl⟩

/-- C13: when a request passes validation and the backend's `Range` fails
with error `e` (whatever response came with it), `Range` returns exactly
`e` and no response, and its only backend call is that one `Range` call. -/
theorem Range_surfaces_backend_error {κ σ : Type} (k : KVServerBridge κ σ) (ctx : κ)
    (r : etcdserverpb.RangeRequest) (s s1 : σ) (resp : Option RangeResponse) (e : GoError)
    (hv : r.KeysOnly = false ∧ r.SortOrder = 0 ∧ r.SortTarget = 0 ∧ r.Serializable = false ∧
      r.MinCreateRevision = 0 ∧ r.MaxCreateRevision = 0 ∧ r.MinModRevision = 0 ∧
      r.MaxModRevision = 0)
    (hR : k.limited.Range ctx r s = ((resp, some e), s1)) :
    (k.Range ctx r s).outcome = .ret none (some e) ∧
    backendCalls (k.Range ctx r s).effects = [.limitedRange ctx r] ∧
    (k.Range ctx r s).state = s1 := by
  rw [Range_of_supported k ctx r s hv, hR]
  cases resp <;> exact ⟨rfl, rfl, rfl⟩

/-- C13, witness: the backend fails with "database is locked" while also
handing back a response; `Range` returns the error alone. -/
theorem Range_surfaces_backend_error_witness :
    ((scriptedBridge (some rangeRespTwo, some backendError) (none, none)).Range ()
      rangeReqSupported 0).outcome = .ret none (some backendError) ∧
    backendCalls ((scriptedBridge (some rangeRespTwo, some backendError) (none, none)).Range ()
      rangeReqSupported 0).effects = [.limitedRange () rangeReqSupported] ∧
    ((scriptedBridge (some rangeRespTwo, some backendError) (none, none)).Range ()
      rangeReqSupported 0).state = 1 :=
  Range_surfaces_backend_error
    (scriptedBridge (some rangeRespTwo, some backendError) (none, none)) ()
    rangeReqSupported 0 1 (some rangeRespTwo) backendError
    ⟨rfl, rfl, rfl, rfl, rfl, rfl, rfl, rfl⟩ rfl

end server

namespace server

open etcdserverpb

/-- When the backend's `Range` fails, `Put` returns that error after the one
`Range` call. -/
theorem Put_range_error {κ σ : Type} (k : KVServerBridge κ σ) (ctx : κ) (r : PutRequest)
    (s s1 : σ) (resp : Option RangeResponse) (e : GoError)
    (hR : k.limited.Range ctx { Key := r.Key } s = ((resp, some e), s1)) :
    k.Put ctx r s = ⟨.ret none (some e), s1, [.limitedRange ctx { Key := r.Key }]⟩ := by
  cases resp <;> simp only [KVServerBridge.Put, hR]

/-- When the backend's `Range` returns neither a response nor an error,
`Put` panics after the one `Range` call. -/
theorem Put_range_nil {κ σ : Type} (k : KVServerBridge κ σ) (ctx : κ) (r : PutRequest)
    (s s1 : σ) (hR : k.limited.Range ctx { Key := r.Key } s = ((none, none), s1)) :
    k.Put ctx r s = ⟨.panicked, s1, [.limitedRange ctx { Key := r.Key }]⟩ := by
  simp only [KVServerBridge.Put, hR]

/-- The transactions `Put` submits: none, or the single guarded transaction
built from a successful `Range` answer. -/
theorem Put_txnCalls_cases {κ σ : Type} (k : KVServerBridge κ σ) (ctx : κ) (r : PutRequest)
    (s : σ) :
    txnCalls (k.Put ctx r s).effects = [] ∨
    ∃ (resp : RangeResponse) (rev : Int),
      k.limited.Range ctx { Key := r.Key } s = ((some resp, none), (k.limited.Range ctx
        { Key := r.Key } s).2) ∧
      Put.rev resp.Kvs = some rev ∧
      txnCalls (k.Put ctx r s).effects = [Put.txn r (modRevisionEquals r.Key rev)] := by
  rcases hR : k.limited.Range ctx { Key := r.Key } s with ⟨⟨_ | resp, _ | e⟩, s1⟩
  · left
    rw [Put_range_nil k ctx r s s1 hR]
    rfl
  · left
    rw [Put_range_error k ctx r s s1 none e hR]
    rfl
  · cases hrev : Put.rev resp.Kvs with
    | none =>
      left
      rw [Put_nil_record k ctx r s s1 resp hR hrev]
      rfl
    | some rev =>
      right
      refine ⟨resp, rev, rfl, hrev, ?_⟩
      rw [Put_effects_after_range k ctx r s s1 resp rev hR hrev]
      rfl
  · left
    rw [Put_range_error k ctx r s s1 (some resp) e hR]
    rfl

/-- C14: `Put` never retries.  It makes exactly one backend `Range` call and
at most one backend `Txn` call; when the `Range` call fails with error `e`
it returns `e` and no response without any `Txn` call; and when the `Txn`
call it makes fails with error `e` it returns `e` and no response. -/
theorem Put_never_retries {κ σ : Type} (k : KVServerBridge κ σ) (ctx : κ) (r : PutRequest)
    (s : σ) :
    (rangeCalls (k.Put ctx r s).effects).length = 1 ∧
    (txnCalls (k.Put ctx r s).effects).length ≤ 1 ∧
    (∀ (resp : Option RangeResponse) (e : GoError) (s1 : σ),
      k.limited.Range ctx { Key := r.Key } s = ((resp, some e), s1) →
      (k.Put ctx r s).outcome = .ret none (some e) ∧
      txnCalls (k.Put ctx r s).effects = []) ∧
    (∀ t ∈ txnCalls (k.Put ctx r s).effects,
      ∀ (tresp : Option TxnResponse) (e : GoError) (s2 : σ),
      k.limited.Txn ctx t (k.limited.Range ctx { Key := r.Key } s).2 = ((tresp, some e), s2) →
      (k.Put ctx r s).outcome = .ret none (some e)) := by
  refine ⟨?_, ?_, ?_, ?_⟩
  · rw [(Put_range_first k ctx r s).2]
    rfl
  · rcases Put_txnCalls_cases k ctx r s with h | ⟨_, _, _, _, h⟩ <;> rw [h] <;> simp
  · intro resp e s1 hR
    rw [Put_range_error k ctx r s s1 resp e hR]
    exact ⟨rfl, rfl⟩
  · intro t ht tresp e s2 hT
    rcases Put_txnCalls_cases k ctx r s with h | ⟨resp, rev, hR, hrev, h⟩
    · rw [h] at ht
      simp at ht
    · rw [h] at ht
      have ht' : t = Put.txn r (modRevisionEquals r.Key rev) := by simpa using ht
      subst ht'
      rw [Put_after_range k ctx r s _ resp rev hR hrev, hT]
      cases tresp <;> rfl

/-- C14, witness: the put of `"k"` against a backend whose transaction fails
with "database is locked" returns that error. -/
theorem Put_never_retries_witness :
    ((scriptedBridge (some rangeRespK, none) (some txnRespPut, some backendError)).Put ()
      putK 0).outcome = .ret none (some backendError) :=
  (Put_never_retries (scriptedBridge (some rangeRespK, none) (some txnRespPut, some backendError))
    () putK 0).2.2.2 (Put.txn putK (modRevisionEquals keyK 7))
    (by
      rw [Put_effects_after_range _ () putK 0 1 rangeRespK 7 rfl rfl]
      exact List.mem_singleton.mpr rfl)
    (some txnRespPut) backendError 2 rfl

end server

namespace server

open etcdserverpb

/-- C15: for every `DeleteRangeRequest`, the nil one included, and every
backend, `DeleteRange` returns no response and the error whose message is
exactly "delete is not supported", without any backend call (without any
effect at all) and leaving the backend state as it was. -/
theorem DeleteRange_not_supported {κ σ : Type} (k : KVServerBridge κ σ) (ctx : κ)
    (r : Option DeleteRangeRequest) (s : σ) :
    (k.DeleteRange ctx r s).outcome = .ret none (some ⟨"delete is not supported"⟩) ∧
    backendCalls (k.DeleteRange ctx r s).effects = [] ∧
    (k.DeleteRange ctx r s).effects = [] ∧
    (k.DeleteRange ctx r s).state = s ∧
    (k.DeleteRange ctx none s).outcome = .ret none (some ⟨"delete is not supported"⟩) :=
  ⟨rfl, rfl, rfl, rfl, rfl⟩

/-- C16: for every `CompactionRequest` with revision `R`, any integer (so
any 64-bit integer, `0` and the negative ones included), `Compact` returns a
nil error and a response whose header carries revision exactly `R`, without
any backend call and leaving the backend state as it was. -/
theorem Compact_echoes_revision {κ σ : Type} (k : KVServerBridge κ σ) (ctx : κ)
    (r : CompactionRequest) (s : σ) :
    (∃ (resp : CompactionResponse) (hdr : ResponseHeader),
      (k.Compact ctx r s).outcome = .ret (some resp) none ∧
      resp.Header = some hdr ∧ hdr.Revision = r.Revision) ∧
    backendCalls (k.Compact ctx r s).effects = [] ∧
    (k.Compact ctx r s).effects = [] ∧
    (k.Compact ctx r s).state = s ∧
    (k.Compact ctx { Revision := 0 } s).outcome =
      .ret (some { Header := some { Revision := 0 } }) none ∧
    (k.Compact ctx { Revision := -9223372036854775808 } s).outcome =
      .ret (some { Header := some { Revision := -9223372036854775808 } }) none :=
  ⟨⟨_, _, rfl, rfl, rfl⟩, rfl, rfl, rfl, rfl, rfl⟩

/-- C17: for every `TxnRequest` `r` and every backend, `Txn` makes exactly
one backend call, the `Txn` call with `r` unchanged (and the caller's
context), and returns exactly the pair `(response, error)` the backend
returned, on success and on failure alike; the backend state afterwards is
the one the backend's call produced. -/
theorem Txn_passes_through {κ σ : Type} (k : KVServerBridge κ σ) (ctx : κ)
    (r : TxnRequest) (s : σ) :
    backendCalls (k.Txn ctx r s).effects = [.limitedTxn ctx r] ∧
    txnCalls (k.Txn ctx r s).effects = [r] ∧
    rangeCalls (k.Txn ctx r s).effects = [] ∧
    (k.Txn ctx r s).outcome =
      .ret (k.limited.Txn ctx r s).1.1 (k.limited.Txn ctx r s).1.2 ∧
    (k.Txn ctx r s).state = (k.limited.Txn ctx r s).2 := by
  rcases hT : k.limited.Txn ctx r s with ⟨⟨res, _ | e⟩, s1⟩ <;>
    unfold KVServerBridge.Txn <;> rw [hT] <;> exact ⟨rfl, rfl, rfl, rfl, rfl⟩

/-- The output of `toKVs` holds no nil entry. -/
theorem toKVs_no_nil (kvs : List (Option KeyValue)) : ∀ x ∈ toKVs kvs, x ≠ none := by
  intro x hx
  by_cases h : kvs.head? = some none
  · have : toKVs kvs = [] := by simp [toKVs, h]
    rw [this] at hx
    simp at hx
  · rw [toKVs_of_head kvs h, translateNonNil] at hx
    obtain ⟨y, hy, rfl⟩ := List.mem_map.mp hx
    have hs := (List.mem_filter.mp hy).2
    cases y with
    | none => simp at hs
    | some v => simp [toKV]

/-- C19: for every input sequence, nil entries allowed, the output of
`toKVs` holds no nil entry and is no longer than the input; so the `Kvs` of
every response `Range` returns with a nil error holds no nil entry. -/
theorem toKVs_output_no_nil (kvs : List (Option KeyValue)) :
    (∀ x ∈ toKVs kvs, x ≠ none) ∧
    (toKVs kvs).length ≤ kvs.length ∧
    ∀ (κ σ : Type) (k : KVServerBridge κ σ) (ctx : κ) (r : etcdserverpb.RangeRequest) (s : σ)
      (out : etcdserverpb.RangeResponse),
      (k.Range ctx r s).outcome = .ret (some out) none → ∀ x ∈ out.Kvs, x ≠ none := by
  refine ⟨toKVs_no_nil kvs, ?_, ?_⟩
  · by_cases h : kvs.head? = some none
    · have : toKVs kvs = [] := by simp [toKVs, h]
      rw [this]
      simp
    · rw [toKVs_of_head kvs h, translateNonNil, List.length_map]
      exact List.length_filter_le _ _
  · intro κ σ k ctx r s out hout
    unfold KVServerBridge.Range at hout
    split_ifs at hout
    all_goals first
      | (exfalso; simp at hout)
      | skip
    split at hout
    · simp at hout
    · simp at hout
    · simp only [Outcome.ret.injEq, Option.some.injEq, and_true] at hout
      rw [← hout]
      exact toKVs_no_nil _

end server

namespace server

open etcdserverpb

/-- `Put` is its preparation followed, unless it has already ended, by its
completion in the state the `Range` call left. -/
theorem Put_eq_prepare_complete {κ σ : Type} (k : KVServerBridge κ σ) (ctx : κ)
    (r : PutRequest) (s : σ) :
    k.Put ctx r s =
      (match Put.prepare k ctx r s with
      | .finished e => e
      | .ready txn s1 => Put.complete k ctx r txn s1) := by
  unfold KVServerBridge.Put Put.prepare Put.complete
  simp only [Compare_ModRevision_eq]
  split
  · rfl
  · rfl
  · split <;> rfl

end server

namespace server

open etcdserverpb

/-- Against the store, the revision `Put` observes for a key is the
modification revision the store holds for it. -/
theorem Store_rev (st : Store) (key : Bytes) :
    Put.rev (st.Range { Key := key }).Kvs = some (st.modRevision key) := by
  unfold Store.Range Store.modRevision
  cases st.get key <;> simp [Put.rev]

/-- Against the store, the preparation of `Put` ends ready to submit the
transaction guarded by the stored modification revision, and leaves the
store as it was. -/
theorem Store_prepare (st : Store) (r : PutRequest) :
    Put.prepare storeBridge () r st =
      .ready (Put.txn r (modRevisionEquals r.Key (st.modRevision r.Key))) st := by
  simp only [Put.prepare, storeBridge, Store_rev, Compare_ModRevision_eq]

/-- A transaction of `Put` guarded by the current modification revision of
its key runs the `Success` branch: the store performs the write. -/
theorem Store_Txn_of_current (st : Store) (r : PutRequest) :
    st.Txn (Put.txn r (modRevisionEquals r.Key (st.modRevision r.Key))) =
      (.mk (some { Revision := st.Revision + 1 }) true
        [some (.mk (some (.ResponseOp_ResponsePut (some (st.put r).2))))], (st.put r).1) := by
  simp [Store.Txn, Put.txn, Store.holds, modRevisionEquals, TxnRequest.Compare,
    TxnRequest.Success, Store.run, Store.apply, Store.put]

/-- A transaction of `Put` guarded by a revision that is no longer the
modification revision of its key runs the `Failure` branch: the store is
left as it was and the only result is a range result. -/
theorem Store_Txn_of_stale (st : Store) (r : PutRequest) (rev : Int)
    (h : st.modRevision r.Key ≠ rev) :
    ∃ R : etcdserverpb.RangeResponse,
      st.Txn (Put.txn r (modRevisionEquals r.Key rev)) =
        (.mk (some { Revision := st.Revision }) false
          [some (.mk (some (.ResponseOp_ResponseRange (some R))))], st) := by
  refine ⟨{ Header := (st.Range { Key := r.Key }).Header
            Kvs := toKVs (st.Range { Key := r.Key }).Kvs
            More := (st.Range { Key := r.Key }).More
            Count := (st.Range { Key := r.Key }).Count }, ?_⟩
  simp [Store.Txn, Put.txn, Store.holds, modRevisionEquals, TxnRequest.Compare,
    TxnRequest.Failure, Store.run, Store.apply, h]

/-- After the store has written a key, the modification revision of the key
is the new store revision. -/
theorem Store_modRevision_put (st : Store) (r : PutRequest) :
    (st.put r).1.modRevision r.Key = st.Revision + 1 := by
  simp [Store.put, Store.modRevision, Store.get, Bytes.toGoString, GoString.toBytes]

/-- In a store whose records carry revisions up to the store revision, the
modification revision of a key is at most the store revision. -/
theorem Store_modRevision_le (st : Store) (key : Bytes) (h0 : 0 ≤ st.Revision)
    (hwf : ∀ kv ∈ st.Records, kv.ModRevision ≤ st.Revision) :
    st.modRevision key ≤ st.Revision := by
  unfold Store.modRevision
  cases hg : st.get key with
  | none => exact h0
  | some kv => exact hwf kv (List.mem_of_find?_eq_some hg)

/-- Two puts to the same key run concurrently against the store, both
reading before either submits: both build a transaction guarded by the same
modification revision; the compare of the one submitted first succeeds and
the compare of the other fails, so at most one compare succeeds; the first
put returns its put response and the second returns a nil response, each
with a nil error. -/
theorem Store_concurrent_Puts (st : Store) (r1 r2 : PutRequest) (hkey : r2.Key = r1.Key)
    (h0 : 0 ≤ st.Revision) (hwf : ∀ kv ∈ st.Records, kv.ModRevision ≤ st.Revision) :
    Put.prepare storeBridge () r1 st =
      .ready (Put.txn r1 (modRevisionEquals r1.Key (st.modRevision r1.Key))) st ∧
    Put.prepare storeBridge () r2 st =
      .ready (Put.txn r2 (modRevisionEquals r1.Key (st.modRevision r1.Key))) st ∧
    (st.Txn (Put.txn r1 (modRevisionEquals r1.Key (st.modRevision r1.Key)))).1.Succeeded
      = true ∧
    ((st.Txn (Put.txn r1 (modRevisionEquals r1.Key (st.modRevision r1.Key)))).2.Txn
      (Put.txn r2 (modRevisionEquals r1.Key (st.modRevision r1.Key)))).1.Succeeded = false ∧
    (Put.complete storeBridge () r1
      (Put.txn r1 (modRevisionEquals r1.Key (st.modRevision r1.Key))) st).outcome =
      .ret (some (st.put r1).2) none ∧
    (Put.complete storeBridge () r2
      (Put.txn r2 (modRevisionEquals r1.Key (st.modRevision r1.Key)))
      (Put.complete storeBridge () r1
        (Put.txn r1 (modRevisionEquals r1.Key (st.modRevision r1.Key))) st).state).outcome =
      .ret none none := by
  have hstale : (st.put r1).1.modRevision r2.Key ≠ st.modRevision r1.Key := by
    rw [hkey, Store_modRevision_put]
    have := Store_modRevision_le st r1.Key h0 hwf
    omega
  obtain ⟨R, hR⟩ := Store_Txn_of_stale (st.put r1).1 r2 (st.modRevision r1.Key) hstale
  have hp2 := Store_prepare st r2
  rw [hkey] at hp2 hR
  have hc1 : Put.complete storeBridge () r1
      (Put.txn r1 (modRevisionEquals r1.Key (st.modRevision r1.Key))) st =
      ⟨.ret (some (st.put r1).2) none, (st.put r1).1,
        [.limitedRange () { Key := r1.Key },
         .limitedTxn () (Put.txn r1 (modRevisionEquals r1.Key (st.modRevision r1.Key)))]⟩ := by
    simp [Put.complete, storeBridge, Store_Txn_of_current, TxnResponse.Responses,
      ResponseOp.GetResponsePut, ResponseOp.GetResponse]
  refine ⟨Store_prepare st r1, hp2, ?_, ?_, ?_, ?_⟩
  · rw [Store_Txn_of_current]
    rfl
  · rw [Store_Txn_of_current, hR]
    rfl
  · rw [hc1]
  · rw [hc1]
    simp [Put.complete, storeBridge, hR, TxnResponse.Responses,
      ResponseOp.GetResponsePut, ResponseOp.GetResponse]

/-- C18 (the code departs from it): two puts to `"k"` run concurrently
against the store holding `"k"` at modification revision 7, each backend
call being one atomic step: both read revision 7 and build a transaction
guarded by it; the transaction of the first is submitted and its compare
succeeds; the transaction of the second is submitted next and its compare
fails, the `Failure` branch runs; yet both puts return a nil error, the
first with its put response (revision 8), the second with a nil
response. -/
theorem concurrent_Puts_both_return_nil_error :
    Put.prepare storeBridge () putK storeK =
      .ready (Put.txn putK (modRevisionEquals keyK 7)) storeK ∧
    Put.prepare storeBridge () putW storeK =
      .ready (Put.txn putW (modRevisionEquals keyK 7)) storeK ∧
    (storeK.Txn (Put.txn putK (modRevisionEquals keyK 7))).1.Succeeded = true ∧
    ((storeK.Txn (Put.txn putK (modRevisionEquals keyK 7))).2.Txn
      (Put.txn putW (modRevisionEquals keyK 7))).1.Succeeded = false ∧
    (Put.complete storeBridge () putK (Put.txn putK (modRevisionEquals keyK 7))
      storeK).outcome = .ret (some { Header := some { Revision := 8 } }) none ∧
    (Put.complete storeBridge () putW (Put.txn putW (modRevisionEquals keyK 7))
      (Put.complete storeBridge () putK (Put.txn putK (modRevisionEquals keyK 7))
        storeK).state).outcome = .ret none none ∧
    (Put.complete storeBridge () putW (Put.txn putW (modRevisionEquals keyK 7))
      (Put.complete storeBridge () putK (Put.txn putK (modRevisionEquals keyK 7))
        storeK).state).state.get keyK =
      some { Key := ⟨keyK⟩, CreateRevision := 3, ModRevision := 8, Value := [118] } := by
  refine ⟨rfl, rfl, ?_, ?_, ?_, ?_, ?_⟩ <;> decide

end server
